import Mathlib

/-!
# obs-ws-relay: the relay engine

A shallow embedding of `src/ws-client.cpp`, `src/ws-relay-impl.c` and
`src/ws-config.c`: the URL parser, the two connection legs, the protocol
callbacks, `ws_connect`, one iteration of `ws_relay_thread`, and
`ws_relay_create` / `ws_relay_start` / `ws_relay_stop`.

Conventions.
* A C string is the list of its characters before the terminating NUL; a
  nullable `char *` is an `Option` of such a list.
* A transport handle (`struct lws *`) is a natural number; a nullable handle
  is an `Option Nat`.
* What libwebsockets decides (the handle returned by a connect request, the
  return value of each write) is an explicit argument of the function that
  asks for it.
* Calls into libwebsockets and the scheduler's calls of `ws_connect` are
  recorded in a list of `Effect`s returned next to the new state.
* A `time_t` value is an integer; the difference of two of them is computed
  as the 64-bit machine computes it (`time_t_sub`).
-/

namespace ObsWsRelay

/-! ## C strings -/

/-- A C string: its characters before the terminating NUL. -/
abbrev CStr := List Char

/-- The call `strncmp(s, lit, strlen(lit)) == 0`: the literal is a prefix
of `s`. -/
def strncmp_eq (s lit : CStr) : Bool :=
  s.take lit.length == lit

/-- The offset of the first occurrence of `c` in `s`, as `strchr` finds it;
`none` is the null result. -/
def strchr : CStr → Char → Option Nat
  | [], _ => none
  | x :: xs, c => if x = c then some 0 else (strchr xs c).map (· + 1)

/-- The white-space characters of the C locale. -/
def isspace (c : Char) : Bool :=
  c.toNat = 32 || (9 ≤ c.toNat && c.toNat ≤ 13)

/-- A decimal digit. -/
def isdigit (c : Char) : Bool :=
  48 ≤ c.toNat && c.toNat ≤ 57

/-- Largest value of a C `long` (LP64). The parser compares the value read
with 65535 only, so a narrower `long` gives the same ports. -/
def LONG_MAX : Int := 9223372036854775807

/-- Smallest value of a C `long` (LP64). -/
def LONG_MIN : Int := -9223372036854775808

/-- Value of a run of decimal digits read left to right, starting from `acc`. -/
def digitsValue (acc : Nat) (ds : List Char) : Nat :=
  ds.foldl (fun a c => a * 10 + (c.toNat - 48)) acc

/-- The library call `strtol(s, &endptr, 10)`: skip white space, read an
optional sign, then the longest run of decimal digits. The result is the
value, clamped to the range of `long`, and the offset of `endptr` in `s`.
With no digit at all the value is 0 and `endptr` is `s` itself. -/
def strtol (s : CStr) : Int × Nat :=
  let ws := s.takeWhile isspace
  let s1 := s.dropWhile isspace
  let neg : Bool := s1.head? == some '-'
  let signLen : Nat := if s1.head? == some '-' || s1.head? == some '+' then 1 else 0
  let s2 := s1.drop signLen
  let ds := s2.takeWhile isdigit
  if ds.isEmpty then (0, 0)
  else
    let v : Int := digitsValue 0 ds
    let sv : Int := if neg then -v else v
    (max LONG_MIN (min LONG_MAX sv), ws.length + signLen + ds.length)

/-! ## URL parser (`parse_ws_url`, ws-client.cpp) -/

/-- The return value and the four output parameters of `parse_ws_url`. -/
structure parse_result where
  ret : Bool
  host : Option CStr
  port : Nat
  path : Option CStr
  use_ssl : Bool
  deriving DecidableEq, Repr

/-- The part of `parse_ws_url` after the scheme: `url` is the text that
follows `ws://` or `wss://`, `port` the scheme's default port. -/
def parse_host_port (url : CStr) (port : Nat) (use_ssl : Bool) : parse_result :=
  let colon := strchr url ':'
  let slash := strchr url '/'
  match colon, slash with
  | some c, none =>
    -- port specified, no path
    let (port_val, endoff) := strtol (url.drop (c + 1))
    let endptr := c + 1 + endoff
    let port1 : Nat :=
      if port_val > 0 ∧ port_val ≤ 65535 ∧ endptr = url.length then port_val.toNat else port
    { ret := true, host := some (url.take c), port := port1, path := some ['/'],
      use_ssl := use_ssl }
  | some c, some sl =>
    if c < sl then
      -- port specified, path follows
      let (port_val, endoff) := strtol (url.drop (c + 1))
      let endptr := c + 1 + endoff
      let port1 : Nat :=
        if port_val > 0 ∧ port_val ≤ 65535 ∧ (endptr = sl ∨ endptr = url.length)
        then port_val.toNat else port
      { ret := true, host := some (url.take c), port := port1, path := some (url.drop sl),
        use_ssl := use_ssl }
    else
      -- no port, path specified
      { ret := true, host := some (url.take sl), port := port, path := some (url.drop sl),
        use_ssl := use_ssl }
  | none, some sl =>
    -- no port, path specified
    { ret := true, host := some (url.take sl), port := port, path := some (url.drop sl),
      use_ssl := use_ssl }
  | none, none =>
    -- no port or path
    { ret := true, host := some url, port := port, path := some ['/'], use_ssl := use_ssl }

/-- The function `parse_ws_url` applied to a non-null `url` with non-null
output pointers. -/
def parse_ws_url (url : CStr) : parse_result :=
  if strncmp_eq url "wss://".toList then
    parse_host_port (url.drop 6) 443 true
  else if strncmp_eq url "ws://".toList then
    parse_host_port (url.drop 5) 80 false
  else
    { ret := false, host := none, port := 80, path := none, use_ssl := false }

/-! ## Data model (ws-relay.h, ws-relay-internal.h) -/

/-- A byte of a message (`char`). -/
abbrev Byte := Fin 256

/-- The connection states of ws-relay.h. -/
inductive ws_connection_state_t
  | WS_STATE_DISCONNECTED
  | WS_STATE_CONNECTING
  | WS_STATE_CONNECTED
  | WS_STATE_ERROR
  deriving DecidableEq, Repr

open ws_connection_state_t

/-- The two legs of the relay: `&relay->obs_conn` and `&relay->remote_conn`. -/
inductive Leg
  | obs
  | remote
  deriving DecidableEq, Repr

/-- The structure `ws_connection`. The back pointer `relay` is left out: a
connection belongs to the relay that holds it. -/
structure ws_connection where
  wsi : Option Nat
  state : ws_connection_state_t
  buffers : List (List Byte)
  is_remote : Bool
  address : Option CStr
  port : Nat
  path : Option CStr
  use_ssl : Bool
  deriving DecidableEq, Repr

/-- The structure `ws_relay_config_t`. -/
structure ws_relay_config_t where
  local_obs_address : Option CStr
  remote_ws_address : Option CStr
  reconnect_interval : Int
  enable_logging : Bool
  deriving DecidableEq, Repr

/-- What the relay relies on in `struct lws_context`: the user data attached
to each transport handle by `lws_set_opaque_user_data` and read back by
`lws_get_opaque_user_data`. -/
structure lws_context where
  user_data : List (Nat × Leg)
  deriving DecidableEq, Repr

/-- The structure `ws_relay`. The thread handle and the mutex carry no data. -/
structure ws_relay where
  config : ws_relay_config_t
  obs_conn : ws_connection
  remote_conn : ws_connection
  context : lws_context
  running : Bool
  thread_started : Bool
  last_reconnect_attempt : Int
  deriving DecidableEq, Repr

/-- Calls that leave the relay, in the order they are made. `ws_connect_call`
records a call of `ws_connect` made by the scheduler, with the clock reading
of the iteration and the relay as it was when the call was made. -/
inductive Effect
  | ws_connect_call (leg : Leg) (now : Int) (at_call : ws_relay)
  | lws_client_connect_via_info (leg : Leg) (address : Option CStr) (port : Nat)
      (path : Option CStr) (ssl : Bool)
  | lws_write (wsi : Nat) (payload : List Byte)
  | lws_callback_on_writable (wsi : Nat)
  | lws_close_reason (wsi : Nat)
  | lws_cancel_service
  | pthread_create
  | pthread_join
  deriving DecidableEq, Repr

/-- The connection a leg names. -/
def ws_relay.conn (relay : ws_relay) : Leg → ws_connection
  | Leg.obs => relay.obs_conn
  | Leg.remote => relay.remote_conn

/-- Store a connection back into the leg it came from. -/
def ws_relay.setConn (relay : ws_relay) (leg : Leg) (c : ws_connection) : ws_relay :=
  match leg with
  | Leg.obs => { relay with obs_conn := c }
  | Leg.remote => { relay with remote_conn := c }

/-- The other leg. -/
def Leg.other : Leg → Leg
  | Leg.obs => Leg.remote
  | Leg.remote => Leg.obs

/-- The function `lws_get_opaque_user_data`: the connection attached to a
handle, `none` when there is none. -/
def lws_get_opaque_user_data (ctx : lws_context) (wsi : Nat) : Option Leg :=
  ctx.user_data.lookup wsi

/-- The function `lws_set_opaque_user_data`. -/
def lws_set_opaque_user_data (ctx : lws_context) (wsi : Nat) (leg : Leg) : lws_context :=
  { user_data := (wsi, leg) :: ctx.user_data }

/-! ## Connections (ws-client.cpp) -/

/-- The function `ws_connection_init`. -/
def ws_connection_init (is_remote : Bool) : ws_connection :=
  { wsi := none, state := WS_STATE_DISCONNECTED, buffers := [], is_remote := is_remote,
    address := none, port := 0, path := none, use_ssl := false }

/-- The function `ws_connect` on the connection `leg` of `relay`. `via_info`
is what `lws_client_connect_via_info` returns for this request. The result is
the return value, the relay afterwards and the calls made. -/
def ws_connect (relay : ws_relay) (leg : Leg) (address : Option CStr)
    (via_info : Option Nat) : Bool × ws_relay × List Effect :=
  match address with
  | none => (false, relay, [])
  | some a =>
    let r := parse_ws_url a
    let conn := relay.conn leg
    -- the output parameters of parse_ws_url are fields of the connection
    let conn1 := { conn with address := r.host, port := r.port, path := r.path,
                             use_ssl := r.use_ssl }
    if !r.ret then
      (false, relay.setConn leg conn1, [])
    else
      let req := Effect.lws_client_connect_via_info leg conn1.address conn1.port conn1.path
        conn1.use_ssl
      let conn2 := { conn1 with state := WS_STATE_CONNECTING, wsi := via_info }
      match via_info with
      | none =>
        (false, relay.setConn leg { conn2 with state := WS_STATE_ERROR }, [req])
      | some w =>
        let relay1 := relay.setConn leg conn2
        (true, { relay1 with context := lws_set_opaque_user_data relay1.context w leg }, [req])

/-- The callback reasons the relay handles; `other` is any reason that falls
to `default`. -/
inductive lws_callback_reasons
  | LWS_CALLBACK_CLIENT_ESTABLISHED
  | LWS_CALLBACK_CLIENT_RECEIVE
  | LWS_CALLBACK_CLIENT_WRITEABLE
  | LWS_CALLBACK_CLIENT_CONNECTION_ERROR
  | LWS_CALLBACK_CLIENT_CLOSED
  | LWS_CALLBACK_CLOSED
  | other
  deriving DecidableEq, Repr

open lws_callback_reasons

/-- The frame built by the receive case: `LWS_PRE` zero bytes, then the
`len` bytes of `in`. -/
def make_frame (LWS_PRE : Nat) (input : List Byte) : List Byte :=
  List.replicate LWS_PRE 0 ++ input

/-- The bytes of a frame handed to `lws_write`: `buf.data() + LWS_PRE`, of
length `buf.size() - LWS_PRE`. -/
def frame_payload (LWS_PRE : Nat) (buf : List Byte) : List Byte :=
  buf.drop LWS_PRE

/-- The loop `for (auto &buf : conn->buffers)` of the writable case, from
the `i`-th write of the callback on. `lws_write_ret i` is the return value
of the `i`-th call of `lws_write`. The result is `false` when a write
returned a negative value (the loop stops there), and the writes made. -/
def flush_buffers (LWS_PRE : Nat) (wsi : Nat) (lws_write_ret : Nat → Int) :
    Nat → List (List Byte) → Bool × List Effect
  | _, [] => (true, [])
  | i, buf :: rest =>
    let w := Effect.lws_write wsi (frame_payload LWS_PRE buf)
    if lws_write_ret i < 0 then (false, [w])
    else
      let (ok, ws) := flush_buffers LWS_PRE wsi lws_write_ret (i + 1) rest
      (ok, w :: ws)

/-- The body shared by `ws_callback_obs` and `ws_callback_remote`: `conn` is
the connection attached to `wsi`, `dest` the leg the receive case forwards
to. The result is the return value, the relay afterwards and the calls made. -/
def ws_callback (LWS_PRE : Nat) (dest : Leg) (relay : ws_relay) (wsi : Nat)
    (reason : lws_callback_reasons) (input : List Byte) (lws_write_ret : Nat → Int) :
    Int × ws_relay × List Effect :=
  match lws_get_opaque_user_data relay.context wsi with
  | none => (0, relay, [])
  | some leg =>
    let conn := relay.conn leg
    match reason with
    | LWS_CALLBACK_CLIENT_ESTABLISHED =>
      (0, relay.setConn leg { conn with state := WS_STATE_CONNECTED }, [])
    | LWS_CALLBACK_CLIENT_RECEIVE =>
      let d := relay.conn dest
      match d.wsi with
      | some dw =>
        if d.state = WS_STATE_CONNECTED then
          (0, relay.setConn dest { d with buffers := d.buffers ++ [make_frame LWS_PRE input] },
            [Effect.lws_callback_on_writable dw])
        else (0, relay, [])
      | none => (0, relay, [])
    | LWS_CALLBACK_CLIENT_WRITEABLE =>
      if conn.buffers.isEmpty then (0, relay, [])
      else
        let (ok, ws) := flush_buffers LWS_PRE wsi lws_write_ret 0 conn.buffers
        (if ok then 0 else -1, relay.setConn leg { conn with buffers := [] }, ws)
    | LWS_CALLBACK_CLIENT_CONNECTION_ERROR =>
      (0, relay.setConn leg { conn with state := WS_STATE_ERROR }, [])
    | LWS_CALLBACK_CLIENT_CLOSED =>
      (0, relay.setConn leg { conn with state := WS_STATE_DISCONNECTED, wsi := none }, [])
    | LWS_CALLBACK_CLOSED =>
      (0, relay.setConn leg { conn with state := WS_STATE_DISCONNECTED, wsi := none }, [])
    | other => (0, relay, [])

/-- The callback `ws_callback_obs`: its receive case forwards to the remote
leg. -/
def ws_callback_obs (LWS_PRE : Nat) (relay : ws_relay) (wsi : Nat)
    (reason : lws_callback_reasons) (input : List Byte) (lws_write_ret : Nat → Int) :
    Int × ws_relay × List Effect :=
  ws_callback LWS_PRE Leg.remote relay wsi reason input lws_write_ret

/-- The callback `ws_callback_remote`: its receive case forwards to the OBS
leg. -/
def ws_callback_remote (LWS_PRE : Nat) (relay : ws_relay) (wsi : Nat)
    (reason : lws_callback_reasons) (input : List Byte) (lws_write_ret : Nat → Int) :
    Int × ws_relay × List Effect :=
  ws_callback LWS_PRE Leg.obs relay wsi reason input lws_write_ret

/-- The callback libwebsockets runs for a connection opened by `ws_connect`
on `leg`: the entry of `protocols[]` named by `info.protocol`, which is
`"websocket"` (`ws_callback_remote`) for the remote leg and `"obs-websocket"`
(`ws_callback_obs`) for the OBS leg. -/
def protocol_callback (LWS_PRE : Nat) (leg : Leg) (relay : ws_relay) (wsi : Nat)
    (reason : lws_callback_reasons) (input : List Byte) (lws_write_ret : Nat → Int) :
    Int × ws_relay × List Effect :=
  match leg with
  | Leg.obs => ws_callback_obs LWS_PRE relay wsi reason input lws_write_ret
  | Leg.remote => ws_callback_remote LWS_PRE relay wsi reason input lws_write_ret

/-! ## Scheduler: one iteration of `ws_relay_thread` after `lws_service` -/

/-- The difference `a - b` of two `time_t` values as the 64-bit machine
computes it: the integer difference brought back into the range of a signed
64-bit integer. It is the integer difference whenever that lies in the
range. -/
def time_t_sub (a b : Int) : Int :=
  (a - b + 9223372036854775808) % 18446744073709551616 - 9223372036854775808

/-- The test `now - relay->last_reconnect_attempt >= relay->config.reconnect_interval`. -/
def interval_elapsed (relay : ws_relay) (now : Int) : Bool :=
  decide (time_t_sub now relay.last_reconnect_attempt ≥ relay.config.reconnect_interval)

/-- The test `strlen(address) > 0` on a configured address. The loop runs
only after `ws_relay_start` has seen both addresses non-null; a null address
counts as not configured here. -/
def address_configured : Option CStr → Bool
  | none => false
  | some a => decide (a.length > 0)

/-- First priority of the iteration: connect to the remote server if needed. -/
def tick_remote (relay : ws_relay) (now : Int) (via_info : Option Nat) :
    ws_relay × List Effect :=
  if relay.remote_conn.state ≠ WS_STATE_CONNECTED ∧
      relay.remote_conn.state ≠ WS_STATE_CONNECTING ∧
      interval_elapsed relay now = true then
    if address_configured relay.config.remote_ws_address then
      let (_, relay1, effs) := ws_connect relay Leg.remote relay.config.remote_ws_address via_info
      ({ relay1 with last_reconnect_attempt := now },
        Effect.ws_connect_call Leg.remote now relay :: effs)
    else (relay, [])
  else (relay, [])

/-- Second priority of the iteration: connect to OBS only if the remote leg
is connected. -/
def tick_obs (relay : ws_relay) (now : Int) (via_info : Option Nat) :
    ws_relay × List Effect :=
  if relay.remote_conn.state = WS_STATE_CONNECTED ∧
      relay.obs_conn.state ≠ WS_STATE_CONNECTED ∧
      relay.obs_conn.state ≠ WS_STATE_CONNECTING ∧
      interval_elapsed relay now = true then
    if address_configured relay.config.local_obs_address then
      let (_, relay1, effs) := ws_connect relay Leg.obs relay.config.local_obs_address via_info
      ({ relay1 with last_reconnect_attempt := now },
        Effect.ws_connect_call Leg.obs now relay :: effs)
    else (relay, [])
  else (relay, [])

/-- Last step of the iteration: if the remote leg is not connected, close
the OBS connection as well. -/
def tick_cascade (relay : ws_relay) : ws_relay × List Effect :=
  match relay.obs_conn.wsi with
  | some w =>
    if relay.remote_conn.state ≠ WS_STATE_CONNECTED ∧
        relay.obs_conn.state = WS_STATE_CONNECTED then
      ({ relay with obs_conn :=
          { relay.obs_conn with wsi := none, state := WS_STATE_DISCONNECTED } },
        [Effect.lws_close_reason w])
    else (relay, [])
  | none => (relay, [])

/-- The part of one iteration of the loop of `ws_relay_thread` that runs
under the mutex, with `now` the value read from `time(NULL)`. `via_remote`
and `via_obs` are what `lws_client_connect_via_info` returns to a connect
request for the remote and for the OBS leg. -/
def ws_relay_tick (relay : ws_relay) (now : Int) (via_remote via_obs : Option Nat) :
    ws_relay × List Effect :=
  let (r1, e1) := tick_remote relay now via_remote
  let (r2, e2) := tick_obs r1 now via_obs
  let (r3, e3) := tick_cascade r2
  (r3, e1 ++ e2 ++ e3)

/-! ## Relay life cycle (ws-config.c, ws-relay-impl.c) -/

/-- The default of `local_obs_address` in ws-config.c. -/
def DEFAULT_LOCAL_OBS_ADDRESS : CStr := "ws://localhost:4455".toList

/-- The default of `remote_ws_address` in ws-config.c. -/
def DEFAULT_REMOTE_WS_ADDRESS : CStr := []

/-- The default of `reconnect_interval` in ws-config.c. -/
def DEFAULT_RECONNECT_INTERVAL : Int := 5

/-- The function `ws_relay_config_init`. -/
def ws_relay_config_init : ws_relay_config_t :=
  { local_obs_address := some DEFAULT_LOCAL_OBS_ADDRESS,
    remote_ws_address := some DEFAULT_REMOTE_WS_ADDRESS,
    reconnect_interval := DEFAULT_RECONNECT_INTERVAL,
    enable_logging := false }

/-- The test `s && strlen(s) > 0` on a nullable string. -/
def nonempty_str : Option CStr → Bool
  | none => false
  | some a => decide (a.length > 0)

/-- The function `ws_relay_create`. `mutex_ok` and `context_ok` tell whether
`pthread_mutex_init` and `lws_create_context` succeed; `none` is the null
result. -/
def ws_relay_create (config : Option ws_relay_config_t) (mutex_ok context_ok : Bool) :
    Option ws_relay :=
  match config with
  | none => none
  | some cfg =>
    let c0 := ws_relay_config_init
    let c1 := if nonempty_str cfg.local_obs_address
      then { c0 with local_obs_address := cfg.local_obs_address } else c0
    let c2 := if nonempty_str cfg.remote_ws_address
      then { c1 with remote_ws_address := cfg.remote_ws_address } else c1
    let c3 := { c2 with reconnect_interval := cfg.reconnect_interval,
                        enable_logging := cfg.enable_logging }
    if !mutex_ok then none
    else if !context_ok then none
    else
      some { config := c3,
             obs_conn := ws_connection_init false,
             remote_conn := ws_connection_init true,
             context := { user_data := [] },
             running := false,
             thread_started := false,
             last_reconnect_attempt := 0 }

/-- The function `ws_relay_start` on a non-null relay. `thread_ok` tells
whether `pthread_create` succeeds. -/
def ws_relay_start (relay : ws_relay) (thread_ok : Bool) : Bool × ws_relay × List Effect :=
  if relay.running then (true, relay, [])
  else if !nonempty_str relay.config.local_obs_address then (false, relay, [])
  else if !nonempty_str relay.config.remote_ws_address then (false, relay, [])
  else
    let relay1 := { relay with running := true, last_reconnect_attempt := 0 }
    if !thread_ok then
      (false, { relay1 with running := false }, [Effect.pthread_create])
    else
      (true, { relay1 with thread_started := true }, [Effect.pthread_create])

/-- The call `lws_close_reason` made for a handle that is not null. -/
def close_reason_of : Option Nat → List Effect
  | none => []
  | some w => [Effect.lws_close_reason w]

/-- The relay after the calling thread of `ws_relay_stop` has cleared
`running` and, under the mutex, closed both connections. -/
def stop_close_connections (relay : ws_relay) : ws_relay :=
  { relay with
    running := false,
    obs_conn := { relay.obs_conn with wsi := none, state := WS_STATE_DISCONNECTED },
    remote_conn := { relay.remote_conn with wsi := none, state := WS_STATE_DISCONNECTED } }

/-- The function `ws_relay_stop` on a non-null relay. After the calling
thread has released the mutex, `pthread_join` waits for the loop thread, which
tests `running` only at the top of its loop: the iteration in progress, ended
out of `lws_service` by `lws_cancel_service`, still runs its scheduler step.
`last_iteration` is that step (its clock reading and what the transport
answers to a connect request for the remote and for the OBS leg), or `none`
when the thread ends without one. Callbacks the transport dispatches are
events of their own and not part of this function. The result is the relay
when the call returns, and the calls made. -/
def ws_relay_stop (relay : ws_relay)
    (last_iteration : Option (Int × Option Nat × Option Nat)) : ws_relay × List Effect :=
  if !relay.running then (relay, [])
  else
    let relay1 := stop_close_connections relay
    let calls := [Effect.lws_cancel_service] ++ close_reason_of relay.obs_conn.wsi ++
      close_reason_of relay.remote_conn.wsi
    if relay.thread_started then
      match last_iteration with
      | none => ({ relay1 with thread_started := false }, calls ++ [Effect.pthread_join])
      | some (now, via_remote, via_obs) =>
        let (relay2, e2) := ws_relay_tick relay1 now via_remote via_obs
        ({ relay2 with thread_started := false }, calls ++ [Effect.pthread_join] ++ e2)
    else (relay1, calls)

/-- The function `ws_relay_is_connected` on a non-null relay. -/
def ws_relay_is_connected (relay : ws_relay) : Bool :=
  relay.obs_conn.state == WS_STATE_CONNECTED && relay.remote_conn.state == WS_STATE_CONNECTED

/-! ## Runs -/

/-- What can happen to a relay: a call of the control interface, one
scheduler iteration, a direct call of `ws_connect`, or a callback from
the transport. -/
inductive Event
  | start (thread_ok : Bool)
  | stop (last_iteration : Option (Int × Option Nat × Option Nat))
  | tick (now : Int) (via_remote via_obs : Option Nat)
  | connect (leg : Leg) (address : Option CStr) (via_info : Option Nat)
  | callback_obs (wsi : Nat) (reason : lws_callback_reasons) (input : List Byte)
      (lws_write_ret : Nat → Int)
  | callback_remote (wsi : Nat) (reason : lws_callback_reasons) (input : List Byte)
      (lws_write_ret : Nat → Int)

/-- The relay after one event, and the calls made. -/
def step (LWS_PRE : Nat) (relay : ws_relay) : Event → ws_relay × List Effect
  | Event.start thread_ok => (ws_relay_start relay thread_ok).2
  | Event.stop last_iteration => ws_relay_stop relay last_iteration
  | Event.tick now via_remote via_obs => ws_relay_tick relay now via_remote via_obs
  | Event.connect leg address via_info => (ws_connect relay leg address via_info).2
  | Event.callback_obs wsi reason input wr =>
    (ws_callback_obs LWS_PRE relay wsi reason input wr).2
  | Event.callback_remote wsi reason input wr =>
    (ws_callback_remote LWS_PRE relay wsi reason input wr).2

/-- The relay after a sequence of events, and all calls made, in order. -/
def run (LWS_PRE : Nat) (relay : ws_relay) : List Event → ws_relay × List Effect
  | [] => (relay, [])
  | e :: es =>
    let (r1, l1) := step LWS_PRE relay e
    let (r2, l2) := run LWS_PRE r1 es
    (r2, l1 ++ l2)

/-- The calls of `ws_connect` the scheduler made, in order: the leg and the
clock reading of each call. -/
def connect_calls (log : List Effect) : List (Leg × Int) :=
  log.filterMap fun e =>
    match e with
    | Effect.ws_connect_call leg now _ => some (leg, now)
    | _ => none

/-- The clock readings of the scheduler iterations of a run, in order. -/
def tick_times (evs : List Event) : List Int :=
  evs.filterMap fun e =>
    match e with
    | Event.tick now _ _ => some now
    | _ => none

/-- The events of the event loop: a scheduler iteration or a callback from
the transport. -/
def is_loop_event : Event → Bool
  | Event.tick _ _ _ => true
  | Event.callback_obs _ _ _ _ => true
  | Event.callback_remote _ _ _ _ => true
  | _ => false

/-- An established callback arrives for a connection whose handle is null.
Other events never do. -/
def established_without_handle (relay : ws_relay) : Event → Bool
  | Event.callback_obs wsi LWS_CALLBACK_CLIENT_ESTABLISHED _ _ =>
    match lws_get_opaque_user_data relay.context wsi with
    | some leg => (relay.conn leg).wsi.isNone
    | none => false
  | Event.callback_remote wsi LWS_CALLBACK_CLIENT_ESTABLISHED _ _ =>
    match lws_get_opaque_user_data relay.context wsi with
    | some leg => (relay.conn leg).wsi.isNone
    | none => false
  | _ => false

/-- No established callback of the run arrives for a connection whose handle
is null at that moment. -/
def established_with_handle (LWS_PRE : Nat) : ws_relay → List Event → Bool
  | _, [] => true
  | relay, e :: es =>
    !established_without_handle relay e &&
      established_with_handle LWS_PRE (step LWS_PRE relay e).1 es

/-- An effect that is not a call of `ws_connect` by the scheduler. -/
def Effect.notCall (e : Effect) : Prop :=
  ∀ l t s, e ≠ Effect.ws_connect_call l t s

/-- Every connected leg of the relay has a transport handle. -/
def connected_has_handle (relay : ws_relay) : Prop :=
  (relay.obs_conn.state = WS_STATE_CONNECTED → relay.obs_conn.wsi ≠ none) ∧
  (relay.remote_conn.state = WS_STATE_CONNECTED → relay.remote_conn.wsi ≠ none)

/-- The handle of a connection agrees with its state at the two ends of its
life: it is null when the connection is disconnected, and not null while the
connection is being set up. -/
def handle_consistent (c : ws_connection) : Prop :=
  (c.state = WS_STATE_DISCONNECTED → c.wsi = none) ∧
  (c.state = WS_STATE_CONNECTING → c.wsi ≠ none)

/-- Both legs of the relay satisfy `handle_consistent`. -/
def handles_consistent (relay : ws_relay) : Prop :=
  handle_consistent relay.obs_conn ∧ handle_consistent relay.remote_conn

/-- The payload an event adds to the queue of leg `B`, if any: the event is
a receive case of the callback that forwards to `B`, run for a handle with a
connection attached, while `B` is connected with a handle that is not
null. -/
def forwarded_payload (B : Leg) (relay : ws_relay) : Event → Option (List Byte)
  | Event.callback_obs wsi LWS_CALLBACK_CLIENT_RECEIVE input _ =>
    if B = Leg.remote ∧ (lws_get_opaque_user_data relay.context wsi).isSome = true ∧
        (relay.conn B).state = WS_STATE_CONNECTED ∧ (relay.conn B).wsi.isSome = true
    then some input else none
  | Event.callback_remote wsi LWS_CALLBACK_CLIENT_RECEIVE input _ =>
    if B = Leg.obs ∧ (lws_get_opaque_user_data relay.context wsi).isSome = true ∧
        (relay.conn B).state = WS_STATE_CONNECTED ∧ (relay.conn B).wsi.isSome = true
    then some input else none
  | _ => none

/-- The payloads the events of a run add to the queue of leg `B`, in
order. -/
def forwarded (LWS_PRE : Nat) (B : Leg) : ws_relay → List Event → List (List Byte)
  | _, [] => []
  | relay, e :: es =>
    (forwarded_payload B relay e).toList ++ forwarded LWS_PRE B (step LWS_PRE relay e).1 es

/-- The event is a writable callback for a handle attached to leg `B`. -/
def is_writeable_on (B : Leg) (relay : ws_relay) : Event → Bool
  | Event.callback_obs wsi LWS_CALLBACK_CLIENT_WRITEABLE _ _ =>
    lws_get_opaque_user_data relay.context wsi == some B
  | Event.callback_remote wsi LWS_CALLBACK_CLIENT_WRITEABLE _ _ =>
    lws_get_opaque_user_data relay.context wsi == some B
  | _ => false

/-- No event of the run is a writable callback for leg `B`. -/
def no_writeable_on (LWS_PRE : Nat) (B : Leg) : ws_relay → List Event → Bool
  | _, [] => true
  | relay, e :: es =>
    !is_writeable_on B relay e && no_writeable_on LWS_PRE B (step LWS_PRE relay e).1 es

/-! ## Concrete relays and runs -/

/-- A configuration with a remote address and no local address of its own. -/
def demo_config : ws_relay_config_t :=
  { local_obs_address := none,
    remote_ws_address := some "wss://relay.example/ws".toList,
    reconnect_interval := 5,
    enable_logging := false }

/-- The relay `ws_relay_create` builds from `demo_config`. -/
def demo_relay : ws_relay :=
  { config := { local_obs_address := some DEFAULT_LOCAL_OBS_ADDRESS,
                remote_ws_address := some "wss://relay.example/ws".toList,
                reconnect_interval := 5,
                enable_logging := false },
    obs_conn := ws_connection_init false,
    remote_conn := ws_connection_init true,
    context := { user_data := [] },
    running := false,
    thread_started := false,
    last_reconnect_attempt := 0 }

/-- A relay with the default local address and no remote address: what
`ws_relay_create` builds from a configuration without addresses. -/
def unconfigured_relay : ws_relay :=
  { demo_relay with config := ws_relay_config_init }

/-- A configuration with an empty local address and no remote address. -/
def empty_address_config : ws_relay_config_t :=
  { local_obs_address := some [],
    remote_ws_address := none,
    reconnect_interval := 5,
    enable_logging := false }

/-- Every write succeeds. -/
def writes_ok : Nat → Int := fun _ => 0

/-- Every write fails. -/
def writes_fail : Nat → Int := fun _ => -1

/-- The relay is started and the scheduler opens the remote connection
(handle 1); the relay is stopped while that connection is still being set up,
and started again; then the transport reports handle 1 established. -/
def stale_remote_events : List Event :=
  [Event.start true,
   Event.tick 100 (some 1) none,
   Event.stop none,
   Event.start true,
   Event.callback_remote 1 LWS_CALLBACK_CLIENT_ESTABLISHED [] writes_ok]

/-- The remote connection is opened and established (handle 1) and the
scheduler opens the OBS connection (handle 2); the relay is stopped while the
OBS connection is still being set up, and started again; then the transport
reports handle 2 established. -/
def stale_obs_events : List Event :=
  [Event.start true,
   Event.tick 100 (some 1) none,
   Event.callback_remote 1 LWS_CALLBACK_CLIENT_ESTABLISHED [] writes_ok,
   Event.tick 105 none (some 2),
   Event.stop none,
   Event.start true,
   Event.callback_obs 2 LWS_CALLBACK_CLIENT_ESTABLISHED [] writes_ok]

/-- A first connect request for the remote leg fails at time 100; an
iteration at time 102 comes before the interval of 5 has elapsed; the
iteration at time 105 asks again. -/
def retry_events : List Event :=
  [Event.tick 100 none none,
   Event.tick 102 (some 1) none,
   Event.callback_remote 7 LWS_CALLBACK_CLIENT_WRITEABLE [] writes_ok,
   Event.tick 105 (some 1) none]

/-- Both connections are opened in order and established (remote handle 1,
OBS handle 2), then the two bytes `hi` arrive from OBS. -/
def forward_events : List Event :=
  [Event.start true,
   Event.tick 100 (some 1) none,
   Event.callback_remote 1 LWS_CALLBACK_CLIENT_ESTABLISHED [] writes_ok,
   Event.tick 105 none (some 2),
   Event.callback_obs 2 LWS_CALLBACK_CLIENT_ESTABLISHED [] writes_ok,
   Event.callback_obs 2 LWS_CALLBACK_CLIENT_RECEIVE [104, 105] writes_ok]

/-- After `forward_events`, the remote connection is closed while the frame
`hi` is still in its queue. -/
def closed_with_queue_events : List Event :=
  forward_events ++ [Event.callback_remote 1 LWS_CALLBACK_CLIENT_CLOSED [] writes_ok]

/-- Both connections are established (remote handle 1, OBS handle 2), the
byte `a` arrives from the remote side and the writable callback of the OBS leg
writes it; then the OBS connection is closed. -/
def flushed_events : List Event :=
  [Event.start true,
   Event.tick 100 (some 1) none,
   Event.callback_remote 1 LWS_CALLBACK_CLIENT_ESTABLISHED [] writes_ok,
   Event.tick 105 none (some 2),
   Event.callback_obs 2 LWS_CALLBACK_CLIENT_ESTABLISHED [] writes_ok,
   Event.callback_remote 1 LWS_CALLBACK_CLIENT_RECEIVE [97] writes_ok,
   Event.callback_obs 2 LWS_CALLBACK_CLIENT_WRITEABLE [] writes_ok,
   Event.callback_obs 2 LWS_CALLBACK_CLIENT_CLOSED [] writes_ok]

/-- The scheduler opens the OBS connection again (handle 3); the bytes `hi`
arrive from the remote side while that connection is being set up; it is then
established and the bytes `yo` arrive from the remote side. -/
def early_receive_events : List Event :=
  [Event.tick 110 none (some 3),
   Event.callback_remote 1 LWS_CALLBACK_CLIENT_RECEIVE [104, 105] writes_ok,
   Event.callback_obs 3 LWS_CALLBACK_CLIENT_ESTABLISHED [] writes_ok,
   Event.callback_remote 1 LWS_CALLBACK_CLIENT_RECEIVE [121, 111] writes_ok]

/-- After the remote connection was closed with a frame queued, the
scheduler opens it again (handle 3) and the transport reports it
established. -/
def reconnect_events : List Event :=
  [Event.tick 110 (some 3) none,
   Event.callback_remote 3 LWS_CALLBACK_CLIENT_ESTABLISHED [] writes_ok]

/-- Iterations of the loop thread on a started relay, nothing else. Both
connections are opened and established (remote handle 1, OBS handle 2). The
remote connection is closed; the scheduler opens it again (handle 3) and, in
the same iteration, sets the OBS handle to null and the OBS leg to
disconnected, while connection 2 stays attached to the OBS leg. Handle 3 is
established and the scheduler opens the OBS connection again (handle 4). The
close of connection 2 is then reported, and after it handle 4 is reported
established. -/
def late_close_loop_events : List Event :=
  [Event.tick 100 (some 1) none,
   Event.callback_remote 1 LWS_CALLBACK_CLIENT_ESTABLISHED [] writes_ok,
   Event.tick 105 none (some 2),
   Event.callback_obs 2 LWS_CALLBACK_CLIENT_ESTABLISHED [] writes_ok,
   Event.callback_remote 1 LWS_CALLBACK_CLIENT_CLOSED [] writes_ok,
   Event.tick 110 (some 3) none,
   Event.callback_remote 3 LWS_CALLBACK_CLIENT_ESTABLISHED [] writes_ok,
   Event.tick 115 none (some 4),
   Event.callback_obs 2 LWS_CALLBACK_CLIENT_CLOSED [] writes_ok,
   Event.callback_obs 4 LWS_CALLBACK_CLIENT_ESTABLISHED [] writes_ok]

/-- The relay created from `demo_config`, started, after the iterations
`late_close_loop_events`. -/
def late_close_relay : ws_relay :=
  (run 16 demo_relay (Event.start true :: late_close_loop_events)).1

/-! ## The URL parser: lemmas -/

theorem strchr_append_of_not_mem (h r : CStr) (c : Char) (hc : c ∉ h) :
    strchr (h ++ r) c = (strchr r c).map (· + h.length) := by
  induction h with
  | nil => simp
  | cons x xs ih =>
    have hx : x ≠ c := fun e => hc (by simp [e])
    have hxs : c ∉ xs := fun e => hc (by simp [e])
    simp [strchr, hx, ih hxs, Option.map_map, Function.comp_def, Nat.add_assoc]

theorem strchr_cons_self (r : CStr) (c : Char) : strchr (c :: r) c = some 0 := by
  simp [strchr]

theorem strchr_of_not_mem (l : CStr) (c : Char) (hc : c ∉ l) : strchr l c = none := by
  have := strchr_append_of_not_mem l [] c hc
  simpa [strchr] using this

theorem strchr_lt_length (l : CStr) (c : Char) (k : Nat) (h : strchr l c = some k) :
    k < l.length := by
  induction l generalizing k with
  | nil => simp [strchr] at h
  | cons x xs ih =>
    by_cases hx : x = c
    · simp [strchr, hx] at h; subst h; simp
    · simp [strchr, hx] at h
      obtain ⟨a, ha, rfl⟩ := h
      have := ih a ha
      simp; omega

theorem strncmp_eq_iff (s lit : CStr) : strncmp_eq s lit = true ↔ lit <+: s := by
  unfold strncmp_eq
  rw [List.prefix_iff_eq_take, beq_iff_eq]
  exact eq_comm

theorem ws_lit : "ws://".toList = ['w', 's', ':', '/', '/'] := rfl

theorem wss_lit : "wss://".toList = ['w', 's', 's', ':', '/', '/'] := rfl

theorem parse_ws_url_ws (rest : CStr) :
    parse_ws_url ("ws://".toList ++ rest) = parse_host_port rest 80 false := by
  simp [parse_ws_url, strncmp_eq, ws_lit, wss_lit]

theorem parse_ws_url_wss (rest : CStr) :
    parse_ws_url ("wss://".toList ++ rest) = parse_host_port rest 443 true := by
  simp [parse_ws_url, strncmp_eq, ws_lit, wss_lit]

theorem parse_host_port_no_port (h p : CStr) (port : Nat) (ssl : Bool)
    (hcolon : ':' ∉ h) (hslash : '/' ∉ h) (hp : p = [] ∨ p.head? = some '/') :
    parse_host_port (h ++ p) port ssl =
      { ret := true, host := some h, port := port,
        path := some (if p = [] then ['/'] else p), use_ssl := ssl } := by
  rcases hp with rfl | hp
  · simp [parse_host_port, strchr_of_not_mem _ _ hcolon, strchr_of_not_mem _ _ hslash]
  · obtain ⟨q, rfl⟩ : ∃ q, p = '/' :: q := by
      cases p with
      | nil => simp at hp
      | cons x q => exact ⟨q, by simp at hp; simp [hp]⟩
    have hsl : strchr (h ++ '/' :: q) '/' = some h.length := by
      rw [strchr_append_of_not_mem _ _ _ hslash, strchr_cons_self]; simp
    have hco : strchr (h ++ '/' :: q) ':' = (strchr q ':').map (· + 1 + h.length) := by
      rw [strchr_append_of_not_mem _ _ _ hcolon]
      simp [strchr, Option.map_map, Function.comp_def]
    unfold parse_host_port
    rw [hsl, hco]
    cases hq : strchr q ':' with
    | none => simp
    | some k =>
      have : ¬ (k + 1 + h.length < h.length) := by omega
      simp [this]

theorem digitChar_toNat (k : Nat) (hk : k < 10) : (Nat.digitChar k).toNat = 48 + k := by
  interval_cases k <;> simp [Nat.digitChar]

theorem digitsValue_append (acc : Nat) (l1 l2 : List Char) :
    digitsValue acc (l1 ++ l2) = digitsValue (digitsValue acc l1) l2 := by
  simp [digitsValue]

theorem toDigitsCore_spec (fuel : Nat) : ∀ (n : Nat) (ds : List Char), n < fuel →
    ∃ pre : List Char, Nat.toDigitsCore 10 fuel n ds = pre ++ ds ∧ pre ≠ [] ∧
      (∀ c ∈ pre, isdigit c = true) ∧
      ∀ acc, digitsValue acc pre = acc * 10 ^ pre.length + n := by
  induction fuel with
  | zero => intro n ds h; omega
  | succ fuel ih =>
    intro n ds hn
    have hmod : n % 10 < 10 := Nat.mod_lt _ (by decide)
    have hdig : isdigit (Nat.digitChar (n % 10)) = true := by
      simp [isdigit, digitChar_toNat _ hmod]; omega
    unfold Nat.toDigitsCore
    by_cases h0 : n / 10 = 0
    · refine ⟨[Nat.digitChar (n % 10)], by simp [h0], by simp, by simpa using hdig, ?_⟩
      intro acc
      simp [digitsValue, digitChar_toNat _ hmod]
      omega
    · have hlt : n / 10 < fuel := by omega
      obtain ⟨pre, hpre, _, hall, hval⟩ := ih (n / 10) (Nat.digitChar (n % 10) :: ds) hlt
      refine ⟨pre ++ [Nat.digitChar (n % 10)], by simp [h0, hpre], by simp, ?_, ?_⟩
      · intro c hc
        rcases List.mem_append.1 hc with hc | hc
        · exact hall c hc
        · simp at hc; subst hc; exact hdig
      · intro acc
        rw [digitsValue_append, hval]
        simp [digitsValue, digitChar_toNat _ hmod, pow_succ]
        have := Nat.div_add_mod n 10
        nlinarith [Nat.div_add_mod n 10]

theorem toDigits_spec (n : Nat) :
    Nat.toDigits 10 n ≠ [] ∧ (∀ c ∈ Nat.toDigits 10 n, isdigit c = true) ∧
      digitsValue 0 (Nat.toDigits 10 n) = n := by
  obtain ⟨pre, hpre, hne, hall, hval⟩ := toDigitsCore_spec (n + 1) n [] (Nat.lt_succ_self n)
  have hp : Nat.toDigits 10 n = pre := by simpa [Nat.toDigits] using hpre
  rw [hp]
  exact ⟨hne, hall, by simpa using hval 0⟩

theorem repr_toList (n : Nat) : (Nat.repr n).toList = Nat.toDigits 10 n := by
  simp [Nat.repr, List.asString]

theorem isdigit_not_isspace (c : Char) (h : isdigit c = true) : isspace c = false := by
  simp [isdigit] at h
  simp [isspace]
  omega

theorem isdigit_ne (c d : Char) (h : isdigit c = true) (hd : isdigit d = false) : c ≠ d := by
  rintro rfl
  simp [h] at hd

theorem takeWhile_digits (ds rest : CStr) (hd : ∀ c ∈ ds, isdigit c = true)
    (hrest : rest = [] ∨ rest.head? = some '/') :
    (ds ++ rest).takeWhile isdigit = ds := by
  induction ds with
  | nil =>
    rcases hrest with rfl | h
    · rfl
    · cases rest with
      | nil => rfl
      | cons x xs =>
        simp at h; subst h
        simp [List.takeWhile, isdigit]
  | cons d ds ih =>
    have h1 : isdigit d = true := hd d (by simp)
    have h2 : ∀ c ∈ ds, isdigit c = true := fun c hc => hd c (by simp [hc])
    simp [List.takeWhile, h1, ih h2]

theorem strtol_digits (ds rest : CStr) (hne : ds ≠ []) (hd : ∀ c ∈ ds, isdigit c = true)
    (hrest : rest = [] ∨ rest.head? = some '/') :
    strtol (ds ++ rest) = (max LONG_MIN (min LONG_MAX (digitsValue 0 ds : Int)), ds.length) := by
  cases ds with
  | nil => exact absurd rfl hne
  | cons d ds' =>
    have h1 : isdigit d = true := hd d (by simp)
    have hsp : isspace d = false := isdigit_not_isspace d h1
    have hm : d ≠ '-' := isdigit_ne d '-' h1 (by decide)
    have hp : d ≠ '+' := isdigit_ne d '+' h1 (by decide)
    have htw := takeWhile_digits (d :: ds') rest hd hrest
    simp only [List.cons_append] at htw
    simp [strtol, List.takeWhile, List.dropWhile, hsp, hm, hp, htw]

theorem strtol_neg_digits (ds rest : CStr) (hne : ds ≠ []) (hd : ∀ c ∈ ds, isdigit c = true)
    (hrest : rest = [] ∨ rest.head? = some '/') :
    strtol ('-' :: (ds ++ rest)) =
      (max LONG_MIN (min LONG_MAX (-(digitsValue 0 ds : Int))), 1 + ds.length) := by
  have hsp : isspace '-' = false := by decide
  have htw := takeWhile_digits ds rest hd hrest
  have hne2 : ds.isEmpty = false := by cases ds <;> simp_all
  simp [strtol, List.takeWhile, List.dropWhile, hsp, htw, hne2]

theorem parse_host_port_with_port (h num p : CStr) (port : Nat) (ssl : Bool) (v : Int)
    (hcolon : ':' ∉ h) (hslash : '/' ∉ h) (hnum : '/' ∉ num)
    (hp : p = [] ∨ p.head? = some '/')
    (hst : strtol (num ++ p) = (v, num.length)) :
    parse_host_port (h ++ ':' :: (num ++ p)) port ssl =
      { ret := true, host := some h,
        port := if 0 < v ∧ v ≤ 65535 then v.toNat else port,
        path := some (if p = [] then ['/'] else p), use_ssl := ssl } := by
  have hco : strchr (h ++ ':' :: (num ++ p)) ':' = some h.length := by
    rw [strchr_append_of_not_mem _ _ _ hcolon, strchr_cons_self]; simp
  have hdrop : (h ++ ':' :: (num ++ p)).drop (h.length + 1) = num ++ p := by
    rw [List.drop_append_eq_append_drop]
    simp
  have htake : (h ++ ':' :: (num ++ p)).take h.length = h := by simp
  rcases hp with rfl | hp
  · have hsl : strchr (h ++ ':' :: (num ++ [])) '/' = none := by
      apply strchr_of_not_mem
      simp [hslash, hnum]
    have hst2 : strtol num = (v, num.length) := by simpa using hst
    unfold parse_host_port
    rw [hco, hsl]
    simp only [hdrop, htake]
    have e1 : h.length + 1 + num.length = h.length + (num.length + 1) := by omega
    simp [hst2, e1]
  · obtain ⟨q, rfl⟩ : ∃ q, p = '/' :: q := by
      cases p with
      | nil => simp at hp
      | cons x q => exact ⟨q, by simp at hp; simp [hp]⟩
    have hsl : strchr (h ++ ':' :: (num ++ '/' :: q)) '/' = some (h.length + 1 + num.length) := by
      rw [strchr_append_of_not_mem _ _ _ hslash]
      have : strchr (':' :: (num ++ '/' :: q)) '/' = some (num.length + 1) := by
        have h2 : strchr (num ++ '/' :: q) '/' = some num.length := by
          rw [strchr_append_of_not_mem _ _ _ hnum, strchr_cons_self]; simp
        simp [strchr, h2]
      rw [this]; simp; omega
    have hdropsl : (h ++ ':' :: (num ++ '/' :: q)).drop (h.length + 1 + num.length) = '/' :: q := by
      rw [← List.drop_drop, hdrop]
      simp
    unfold parse_host_port
    rw [hco, hsl]
    simp only [hdrop, htake, hdropsl]
    simp [hst]
    intro hle
    omega

theorem slash_not_mem_digits (ds : CStr) (hd : ∀ c ∈ ds, isdigit c = true) : '/' ∉ ds := by
  intro hmem
  have := hd _ hmem
  revert this
  decide

theorem int_repr_toList_neg (m : Nat) :
    (Int.repr (Int.negSucc m)).toList = '-' :: Nat.toDigits 10 (m + 1) := by
  simp [Int.repr, Nat.repr, List.asString]

theorem int_repr_toList_nat (m : Nat) :
    (Int.repr (Int.ofNat m)).toList = Nat.toDigits 10 m := by
  simp [Int.repr, Nat.repr, List.asString]

/-- What `strtol` reads from the decimal text of an integer followed by the
end of the string or by a path. -/
theorem strtol_int_repr (n : Int) (p : CStr) (hp : p = [] ∨ p.head? = some '/') :
    strtol ((Int.repr n).toList ++ p) =
      (max LONG_MIN (min LONG_MAX n), (Int.repr n).toList.length) ∧
    '/' ∉ (Int.repr n).toList := by
  cases n with
  | ofNat m =>
    obtain ⟨hne, hall, hval⟩ := toDigits_spec m
    rw [int_repr_toList_nat]
    refine ⟨?_, slash_not_mem_digits _ hall⟩
    rw [strtol_digits _ _ hne hall hp, hval]
    rfl
  | negSucc m =>
    obtain ⟨hne, hall, hval⟩ := toDigits_spec (m + 1)
    rw [int_repr_toList_neg]
    refine ⟨?_, ?_⟩
    · rw [List.cons_append, strtol_neg_digits _ _ hne hall hp, hval]
      simp [Int.negSucc_eq]
      omega
    · intro hmem
      rcases List.mem_cons.1 hmem with h | h
      · exact absurd h (by decide)
      · exact slash_not_mem_digits _ hall h

/-! ## The URL parser: claims C6 to C9 -/

theorem parse_host_port_int (h p : CStr) (n : Int) (port : Nat) (ssl : Bool)
    (hcolon : ':' ∉ h) (hslash : '/' ∉ h) (hp : p = [] ∨ p.head? = some '/') :
    parse_host_port (h ++ ':' :: ((Int.repr n).toList ++ p)) port ssl =
      { ret := true, host := some h,
        port := if 0 < n ∧ n ≤ 65535 then n.toNat else port,
        path := some (if p = [] then ['/'] else p), use_ssl := ssl } := by
  obtain ⟨hst, hnum⟩ := strtol_int_repr n p hp
  rw [parse_host_port_with_port h _ p port ssl _ hcolon hslash hnum hp hst]
  have hclamp : (0 < max LONG_MIN (min LONG_MAX n) ∧ max LONG_MIN (min LONG_MAX n) ≤ 65535) ↔
      (0 < n ∧ n ≤ 65535) := by
    simp only [LONG_MAX, LONG_MIN]
    omega
  have hport : (if 0 < max LONG_MIN (min LONG_MAX n) ∧ max LONG_MIN (min LONG_MAX n) ≤ 65535
        then (max LONG_MIN (min LONG_MAX n)).toNat else port) =
      (if 0 < n ∧ n ≤ 65535 then n.toNat else port) := by
    by_cases hr : 0 < n ∧ n ≤ 65535
    · have hv : max LONG_MIN (min LONG_MAX n) = n := by
        simp only [LONG_MAX, LONG_MIN]
        omega
      rw [if_pos hr, if_pos (hclamp.2 hr), hv]
    · rw [if_neg hr, if_neg (mt hclamp.1 hr)]
  rw [hport]

theorem url_shape (s h num p : CStr) :
    s ++ h ++ ":".toList ++ num ++ p = s ++ (h ++ ':' :: (num ++ p)) := by
  have : ":".toList = [':'] := rfl
  simp [this]

/-- C6: a URL without a port segment parses to its host, the default port of
its scheme (80 for `ws://`, 443 for `wss://`), the path as written (`/` when
there is none) and the TLS flag of its scheme. -/
theorem parse_ws_url_default_port (h p : CStr) (hne : h ≠ []) (hcolon : ':' ∉ h)
    (hslash : '/' ∉ h) (hp : p = [] ∨ p.head? = some '/') :
    parse_ws_url ("ws://".toList ++ h ++ p) =
      { ret := true, host := some h, port := 80,
        path := some (if p = [] then ['/'] else p), use_ssl := false } ∧
    parse_ws_url ("wss://".toList ++ h ++ p) =
      { ret := true, host := some h, port := 443,
        path := some (if p = [] then ['/'] else p), use_ssl := true } := by
  have _ := hne
  rw [List.append_assoc, List.append_assoc, parse_ws_url_ws, parse_ws_url_wss]
  exact ⟨parse_host_port_no_port h p 80 false hcolon hslash hp,
    parse_host_port_no_port h p 443 true hcolon hslash hp⟩

/-- Witness of C6: `ws://example.org/a:b` and `wss://example.org/a:b`, a path
that contains a colon. -/
theorem parse_ws_url_default_port_witness :
    parse_ws_url "ws://example.org/a:b".toList =
      { ret := true, host := some "example.org".toList, port := 80,
        path := some "/a:b".toList, use_ssl := false } ∧
    parse_ws_url "wss://example.org/a:b".toList =
      { ret := true, host := some "example.org".toList, port := 443,
        path := some "/a:b".toList, use_ssl := true } :=
  parse_ws_url_default_port "example.org".toList "/a:b".toList (by decide) (by decide)
    (by decide) (by decide)

/-- C7: a URL with a port segment `n`, 1 ≤ n ≤ 65535 in decimal, parses to its
host, the port `n`, the path as written (`/` when there is none) and the TLS
flag of its scheme. -/
theorem parse_ws_url_explicit_port (h p : CStr) (n : Nat) (hne : h ≠ []) (hcolon : ':' ∉ h)
    (hslash : '/' ∉ h) (hn : 1 ≤ n ∧ n ≤ 65535) (hp : p = [] ∨ p.head? = some '/') :
    parse_ws_url ("ws://".toList ++ h ++ ":".toList ++ (Nat.repr n).toList ++ p) =
      { ret := true, host := some h, port := n,
        path := some (if p = [] then ['/'] else p), use_ssl := false } ∧
    parse_ws_url ("wss://".toList ++ h ++ ":".toList ++ (Nat.repr n).toList ++ p) =
      { ret := true, host := some h, port := n,
        path := some (if p = [] then ['/'] else p), use_ssl := true } := by
  have _ := hne
  have hrepr : (Nat.repr n).toList = (Int.repr (Int.ofNat n)).toList := rfl
  have hr : 0 < (Int.ofNat n) ∧ (Int.ofNat n) ≤ 65535 := by
    constructor
    · exact Int.ofNat_lt.2 hn.1
    · exact Int.ofNat_le.2 hn.2
  rw [url_shape, url_shape, parse_ws_url_ws, parse_ws_url_wss, hrepr,
    parse_host_port_int h p _ 80 false hcolon hslash hp,
    parse_host_port_int h p _ 443 true hcolon hslash hp, if_pos hr, if_pos hr]
  exact ⟨rfl, rfl⟩

/-- Witness of C7: `ws://example.org:4455/x` and `wss://example.org:4455/x`. -/
theorem parse_ws_url_explicit_port_witness :
    parse_ws_url ("ws://".toList ++ "example.org".toList ++ ":".toList ++
        (Nat.repr 4455).toList ++ "/x".toList) =
      { ret := true, host := some "example.org".toList, port := 4455,
        path := some "/x".toList, use_ssl := false } ∧
    parse_ws_url ("wss://".toList ++ "example.org".toList ++ ":".toList ++
        (Nat.repr 4455).toList ++ "/x".toList) =
      { ret := true, host := some "example.org".toList, port := 4455,
        path := some "/x".toList, use_ssl := true } :=
  parse_ws_url_explicit_port "example.org".toList "/x".toList 4455 (by decide) (by decide)
    (by decide) (by decide) (by decide)

/-- C8, as the code has it: a port segment outside 1..65535 does not make
`parse_ws_url` fail. The call returns true with the host, the default port of
the scheme (80 or 443), the path and the TLS flag; the port segment is
ignored. -/
theorem parse_ws_url_out_of_range_port (h p : CStr) (n : Int) (hcolon : ':' ∉ h)
    (hslash : '/' ∉ h) (hn : n < 1 ∨ 65535 < n) (hp : p = [] ∨ p.head? = some '/') :
    parse_ws_url ("ws://".toList ++ h ++ ":".toList ++ (Int.repr n).toList ++ p) =
      { ret := true, host := some h, port := 80,
        path := some (if p = [] then ['/'] else p), use_ssl := false } ∧
    parse_ws_url ("wss://".toList ++ h ++ ":".toList ++ (Int.repr n).toList ++ p) =
      { ret := true, host := some h, port := 443,
        path := some (if p = [] then ['/'] else p), use_ssl := true } := by
  have hr : ¬ (0 < n ∧ n ≤ 65535) := by omega
  rw [url_shape, url_shape, parse_ws_url_ws, parse_ws_url_wss,
    parse_host_port_int h p _ 80 false hcolon hslash hp,
    parse_host_port_int h p _ 443 true hcolon hslash hp, if_neg hr, if_neg hr]
  exact ⟨rfl, rfl⟩

/-- Witness of C8 as amended: port segment 70000. -/
theorem parse_ws_url_out_of_range_port_witness :
    parse_ws_url ("ws://".toList ++ "host".toList ++ ":".toList ++ (Int.repr 70000).toList ++
        "/x".toList) =
      { ret := true, host := some "host".toList, port := 80,
        path := some "/x".toList, use_ssl := false } ∧
    parse_ws_url ("wss://".toList ++ "host".toList ++ ":".toList ++ (Int.repr 70000).toList ++
        "/x".toList) =
      { ret := true, host := some "host".toList, port := 443,
        path := some "/x".toList, use_ssl := true } :=
  parse_ws_url_out_of_range_port "host".toList "/x".toList 70000 (by decide) (by decide)
    (by decide) (by decide)

/-- Counterexample to C8 as stated: with port segments 0, 65536 and 70000
`parse_ws_url` returns true, not false. -/
theorem parse_ws_url_out_of_range_port_not_rejected :
    (parse_ws_url "ws://host:0".toList).ret = true ∧
    (parse_ws_url "ws://host:65536/x".toList).ret = true ∧
    (parse_ws_url "wss://host:70000".toList).ret = true ∧
    parse_ws_url "wss://host:70000".toList =
      { ret := true, host := some "host".toList, port := 443, path := some "/".toList,
        use_ssl := true } := by
  decide

/-- C9: a string that begins with neither `ws://` nor `wss://` makes
`parse_ws_url` return false, with null host and null path. -/
theorem parse_ws_url_rejects_other_scheme (url : CStr) (hws : ¬ "ws://".toList <+: url)
    (hwss : ¬ "wss://".toList <+: url) :
    (parse_ws_url url).ret = false ∧ (parse_ws_url url).host = none ∧
      (parse_ws_url url).path = none := by
  have h1 : strncmp_eq url "ws://".toList = false := by
    rw [← Bool.not_eq_true, strncmp_eq_iff]; exact hws
  have h2 : strncmp_eq url "wss://".toList = false := by
    rw [← Bool.not_eq_true, strncmp_eq_iff]; exact hwss
  rw [ws_lit] at h1
  rw [wss_lit] at h2
  simp [parse_ws_url, h1, h2]

/-- Witness of C9: `WS://host`. -/
theorem parse_ws_url_rejects_other_scheme_witness :
    (parse_ws_url "WS://host".toList).ret = false ∧ (parse_ws_url "WS://host".toList).host = none ∧
      (parse_ws_url "WS://host".toList).path = none :=
  parse_ws_url_rejects_other_scheme "WS://host".toList (by decide) (by decide)

/-! ## Relay: lemmas on legs and callbacks -/

@[simp] theorem conn_setConn_same (r : ws_relay) (l : Leg) (c : ws_connection) :
    (r.setConn l c).conn l = c := by
  cases l <;> rfl

@[simp] theorem conn_setConn_other (r : ws_relay) (l : Leg) (c : ws_connection) :
    (r.setConn l c).conn l.other = r.conn l.other := by
  cases l <;> rfl

@[simp] theorem conn_setConn_other' (r : ws_relay) (l : Leg) (c : ws_connection) :
    (r.setConn l.other c).conn l = r.conn l := by
  cases l <;> rfl

theorem frame_payload_make_frame (LWS_PRE : Nat) (p : List Byte) :
    frame_payload LWS_PRE (make_frame LWS_PRE p) = p := by
  simp [frame_payload, make_frame, List.drop_append_eq_append_drop]

theorem protocol_callback_eq (LWS_PRE : Nat) (leg : Leg) (relay : ws_relay) (wsi : Nat)
    (reason : lws_callback_reasons) (input : List Byte) (wr : Nat → Int) :
    protocol_callback LWS_PRE leg relay wsi reason input wr =
      ws_callback LWS_PRE leg.other relay wsi reason input wr := by
  cases leg <;> rfl

/-- The writable case empties the queue of the connection it runs for,
whatever the writes return. -/
theorem writeable_empties (LWS_PRE : Nat) (dest leg : Leg) (relay : ws_relay) (wsi : Nat)
    (input : List Byte) (wr : Nat → Int)
    (hleg : lws_get_opaque_user_data relay.context wsi = some leg) :
    ((ws_callback LWS_PRE dest relay wsi LWS_CALLBACK_CLIENT_WRITEABLE input wr).2.1.conn
      leg).buffers = [] := by
  unfold ws_callback
  rw [hleg]
  by_cases hb : (relay.conn leg).buffers.isEmpty = true
  · simp [hb]
    simpa using hb
  · simp [hb]

theorem flush_buffers_fails (LWS_PRE wsi : Nat) (wr : Nat → Int) (bufs : List (List Byte)) :
    ∀ k : Nat, (∃ i, i < bufs.length ∧ wr (k + i) < 0) →
      (flush_buffers LWS_PRE wsi wr k bufs).1 = false := by
  induction bufs with
  | nil => rintro k ⟨i, hi, _⟩; simp at hi
  | cons b bs ih =>
    rintro k ⟨i, hi, hw⟩
    unfold flush_buffers
    by_cases h0 : wr k < 0
    · simp [h0]
    · have hi0 : i ≠ 0 := by
        rintro rfl
        exact h0 (by simpa using hw)
      obtain ⟨j, rfl⟩ := Nat.exists_eq_succ_of_ne_zero hi0
      have hj : ∃ i, i < bs.length ∧ wr (k + 1 + i) < 0 :=
        ⟨j, by simpa using hi, by
          have e : k + 1 + j = k + Nat.succ j := by omega
          rw [e]; exact hw⟩
      simp [h0, ih (k + 1) hj]

/-! ## Forwarding and flushing: claims C1 and C4 -/

/-- C4, as the code has it: when a write of the writable callback of leg B
fails, the callback returns -1, B's queue is empty afterwards, B's state and
handle are as before (the state is not set to `WS_STATE_ERROR`), and the
other leg is unchanged. -/
theorem write_failure_drains_queue (LWS_PRE : Nat) (relay : ws_relay) (B : Leg) (wsi : Nat)
    (input : List Byte) (wr : Nat → Int)
    (hB : lws_get_opaque_user_data relay.context wsi = some B)
    (hne : (relay.conn B).buffers ≠ [])
    (hfail : ∃ i, i < (relay.conn B).buffers.length ∧ wr i < 0) :
    (protocol_callback LWS_PRE B relay wsi LWS_CALLBACK_CLIENT_WRITEABLE input wr).1 = -1 ∧
    ((protocol_callback LWS_PRE B relay wsi LWS_CALLBACK_CLIENT_WRITEABLE input wr).2.1.conn
      B).buffers = [] ∧
    ((protocol_callback LWS_PRE B relay wsi LWS_CALLBACK_CLIENT_WRITEABLE input wr).2.1.conn
      B).state = (relay.conn B).state ∧
    ((protocol_callback LWS_PRE B relay wsi LWS_CALLBACK_CLIENT_WRITEABLE input wr).2.1.conn
      B).wsi = (relay.conn B).wsi ∧
    (protocol_callback LWS_PRE B relay wsi LWS_CALLBACK_CLIENT_WRITEABLE input wr).2.1.conn
      B.other = relay.conn B.other := by
  have hflush : (flush_buffers LWS_PRE wsi wr 0 (relay.conn B).buffers).1 = false :=
    flush_buffers_fails LWS_PRE wsi wr _ 0 (by simpa using hfail)
  have hemp : (relay.conn B).buffers.isEmpty = false := by
    cases hb : (relay.conn B).buffers with
    | nil => exact absurd hb hne
    | cons x xs => rfl
  rw [protocol_callback_eq]
  unfold ws_callback
  rw [hB]
  simp [hemp, hflush]

/-- Witness of C4 as amended: the frame queued for the remote leg by
`forward_events`, and a write that fails. -/
theorem write_failure_drains_queue_witness :
    (protocol_callback 16 Leg.remote (run 16 demo_relay forward_events).1 1
      LWS_CALLBACK_CLIENT_WRITEABLE [] writes_fail).1 = -1 ∧
    ((protocol_callback 16 Leg.remote (run 16 demo_relay forward_events).1 1
      LWS_CALLBACK_CLIENT_WRITEABLE [] writes_fail).2.1.conn Leg.remote).buffers = [] ∧
    ((protocol_callback 16 Leg.remote (run 16 demo_relay forward_events).1 1
      LWS_CALLBACK_CLIENT_WRITEABLE [] writes_fail).2.1.conn Leg.remote).state =
        ((run 16 demo_relay forward_events).1.conn Leg.remote).state ∧
    ((protocol_callback 16 Leg.remote (run 16 demo_relay forward_events).1 1
      LWS_CALLBACK_CLIENT_WRITEABLE [] writes_fail).2.1.conn Leg.remote).wsi =
        ((run 16 demo_relay forward_events).1.conn Leg.remote).wsi ∧
    (protocol_callback 16 Leg.remote (run 16 demo_relay forward_events).1 1
      LWS_CALLBACK_CLIENT_WRITEABLE [] writes_fail).2.1.conn Leg.remote.other =
        (run 16 demo_relay forward_events).1.conn Leg.remote.other :=
  write_failure_drains_queue 16 (run 16 demo_relay forward_events).1 Leg.remote 1 []
    writes_fail (by decide) (by decide) ⟨0, by decide, by decide⟩

/-- Counterexample to C4 as stated: the remote leg is connected with one frame
queued, the write of that frame fails, and afterwards the remote leg is still
in state `WS_STATE_CONNECTED`, not `WS_STATE_ERROR`. -/
theorem write_failure_state_not_error :
    (run 16 demo_relay forward_events).1.remote_conn.state = WS_STATE_CONNECTED ∧
    (run 16 demo_relay forward_events).1.remote_conn.buffers = [make_frame 16 [104, 105]] ∧
    lws_get_opaque_user_data (run 16 demo_relay forward_events).1.context 1 = some Leg.remote ∧
    (ws_callback_remote 16 (run 16 demo_relay forward_events).1 1
      LWS_CALLBACK_CLIENT_WRITEABLE [] writes_fail).1 = -1 ∧
    (ws_callback_remote 16 (run 16 demo_relay forward_events).1 1
      LWS_CALLBACK_CLIENT_WRITEABLE [] writes_fail).2.1.remote_conn.state =
        WS_STATE_CONNECTED ∧
    (ws_callback_remote 16 (run 16 demo_relay forward_events).1 1
      LWS_CALLBACK_CLIENT_WRITEABLE [] writes_fail).2.1.remote_conn.state ≠ WS_STATE_ERROR := by
  decide

/-! ## Scheduler: lemmas -/

/-- What `ws_connect` can do to the state of the connection it is called on:
it is being connected, in error, or as before. -/
theorem ws_connect_state (relay : ws_relay) (leg : Leg) (a : Option CStr) (v : Option Nat) :
    ((ws_connect relay leg a v).2.1.conn leg).state = WS_STATE_CONNECTING ∨
    ((ws_connect relay leg a v).2.1.conn leg).state = WS_STATE_ERROR ∨
    ((ws_connect relay leg a v).2.1.conn leg).state = (relay.conn leg).state := by
  unfold ws_connect
  cases a with
  | none => simp
  | some a =>
    by_cases hr : (parse_ws_url a).ret = true
    · cases v with
      | none => simp [hr]
      | some w => cases leg <;> simp [hr, ws_relay.conn, ws_relay.setConn]
    · simp [hr]

theorem ws_connect_other (relay : ws_relay) (leg : Leg) (a : Option CStr) (v : Option Nat) :
    (ws_connect relay leg a v).2.1.conn leg.other = relay.conn leg.other := by
  unfold ws_connect
  cases a with
  | none => simp
  | some a =>
    by_cases hr : (parse_ws_url a).ret = true
    · cases v with
      | none => simp [hr]
      | some w => cases leg <;> simp [hr, ws_relay.conn, ws_relay.setConn, Leg.other]
    · simp [hr]

theorem ws_connect_config (relay : ws_relay) (leg : Leg) (a : Option CStr) (v : Option Nat) :
    (ws_connect relay leg a v).2.1.config = relay.config ∧
    (ws_connect relay leg a v).2.1.last_reconnect_attempt = relay.last_reconnect_attempt := by
  unfold ws_connect
  cases a with
  | none => simp
  | some a =>
    by_cases hr : (parse_ws_url a).ret = true
    · cases v with
      | none => cases leg <;> simp [hr, ws_relay.setConn]
      | some w => cases leg <;> simp [hr, ws_relay.setConn]
    · cases leg <;> simp [hr, ws_relay.setConn]

/-- The calls `ws_connect` makes are connect requests to the transport. -/
theorem ws_connect_effects (relay : ws_relay) (leg : Leg) (a : Option CStr) (v : Option Nat)
    (e : Effect) (he : e ∈ (ws_connect relay leg a v).2.2) :
    ∃ l ad po pa ssl, e = Effect.lws_client_connect_via_info l ad po pa ssl := by
  unfold ws_connect at he
  cases a with
  | none => simp at he
  | some a =>
    by_cases hr : (parse_ws_url a).ret = true
    · cases v with
      | none => simp [hr] at he; exact ⟨_, _, _, _, _, he⟩
      | some w => simp [hr] at he; exact ⟨_, _, _, _, _, he⟩
    · simp [hr] at he

theorem connect_calls_of_notCall (log : List Effect) (h : ∀ e ∈ log, e.notCall) :
    connect_calls log = [] := by
  unfold connect_calls
  rw [List.filterMap_eq_nil_iff]
  intro e he
  cases e with
  | ws_connect_call l t s => exact absurd rfl (h _ he l t s)
  | _ => rfl

theorem ws_connect_notCall (relay : ws_relay) (leg : Leg) (a : Option CStr) (v : Option Nat) :
    ∀ e ∈ (ws_connect relay leg a v).2.2, e.notCall := by
  intro e he l t s
  obtain ⟨_, _, _, _, _, rfl⟩ := ws_connect_effects relay leg a v e he
  simp

theorem flush_buffers_notCall (LWS_PRE wsi : Nat) (wr : Nat → Int) (bufs : List (List Byte)) :
    ∀ k, ∀ e ∈ (flush_buffers LWS_PRE wsi wr k bufs).2, e.notCall := by
  induction bufs with
  | nil => intro k e he; simp [flush_buffers] at he
  | cons b bs ih =>
    intro k e he
    unfold flush_buffers at he
    by_cases h0 : wr k < 0
    · simp [h0] at he; subst he; intro l t s; simp
    · simp [h0] at he
      rcases he with rfl | he
      · intro l t s; simp
      · exact ih (k + 1) e he

theorem ws_callback_notCall (LWS_PRE : Nat) (dest : Leg) (relay : ws_relay) (wsi : Nat)
    (reason : lws_callback_reasons) (input : List Byte) (wr : Nat → Int) :
    ∀ e ∈ (ws_callback LWS_PRE dest relay wsi reason input wr).2.2, e.notCall := by
  intro e he
  unfold ws_callback at he
  cases hl : lws_get_opaque_user_data relay.context wsi with
  | none => simp [hl] at he
  | some leg =>
    rw [hl] at he
    cases reason with
    | LWS_CALLBACK_CLIENT_RECEIVE =>
      cases hw : (relay.conn dest).wsi with
      | none => simp [hw] at he
      | some dw =>
        by_cases hs : (relay.conn dest).state = WS_STATE_CONNECTED
        · simp [hw, hs] at he; subst he; intro l t s; simp
        · simp [hw, hs] at he
    | LWS_CALLBACK_CLIENT_WRITEABLE =>
      by_cases hb : (relay.conn leg).buffers.isEmpty = true
      · simp [hb] at he
      · simp [hb] at he
        exact flush_buffers_notCall LWS_PRE wsi wr _ 0 e he
    | _ => simp at he

theorem ws_relay_start_notCall (relay : ws_relay) (ok : Bool) :
    ∀ e ∈ (ws_relay_start relay ok).2.2, e.notCall := by
  intro e he l t s
  unfold ws_relay_start at he
  rintro rfl
  split_ifs at he <;> simp at he

/-- A property of the relay that holds before `ws_relay_stop`, holds once both
connections are closed, survives a scheduler step and does not depend on
`thread_started`, holds when `ws_relay_stop` returns. -/
theorem ws_relay_stop_induct (P : ws_relay → Prop) (relay : ws_relay)
    (last : Option (Int × Option Nat × Option Nat))
    (h0 : P relay) (hclose : P (stop_close_connections relay))
    (htick : ∀ (r : ws_relay) (now : Int) (vr vo : Option Nat),
      P r → P (ws_relay_tick r now vr vo).1)
    (hts : ∀ r : ws_relay, P r → P { r with thread_started := false }) :
    P (ws_relay_stop relay last).1 := by
  unfold ws_relay_stop
  by_cases hrun : (!relay.running) = true
  · rw [if_pos hrun]; exact h0
  · rw [if_neg hrun]
    by_cases hth : relay.thread_started = true
    · simp only [hth, if_true]
      cases last with
      | none => exact hts _ hclose
      | some it =>
        obtain ⟨now, vr, vo⟩ := it
        exact hts _ (htick _ now vr vo hclose)
    · simp only [hth]
      exact hclose

/-- The calls `ws_relay_stop` makes: none is a call of `ws_connect` by the
scheduler, except those of the scheduler step the loop thread still runs. -/
theorem ws_relay_stop_log (relay : ws_relay) (last : Option (Int × Option Nat × Option Nat)) :
    ∀ e ∈ (ws_relay_stop relay last).2, e.notCall ∨
      ∃ now vr vo, e ∈ (ws_relay_tick (stop_close_connections relay) now vr vo).2 := by
  have hcalls : ∀ e ∈ [Effect.lws_cancel_service] ++ close_reason_of relay.obs_conn.wsi ++
      close_reason_of relay.remote_conn.wsi, e.notCall := by
    intro e he l t s
    rintro rfl
    simp [close_reason_of] at he
    rcases he with he | he
    · cases hw : relay.obs_conn.wsi <;> simp [hw] at he
    · cases hw : relay.remote_conn.wsi <;> simp [hw] at he
  have hjoin : Effect.pthread_join.notCall := by
    intro l t s; simp
  intro e he
  unfold ws_relay_stop at he
  by_cases hrun : (!relay.running) = true
  · rw [if_pos hrun] at he; simp at he
  · rw [if_neg hrun] at he
    by_cases hth : relay.thread_started = true
    · simp only [hth, if_true] at he
      cases last with
      | none =>
        simp only at he
        rcases List.mem_append.1 he with he | he
        · exact Or.inl (hcalls e he)
        · simp at he; subst he; exact Or.inl hjoin
      | some it =>
        obtain ⟨now, vr, vo⟩ := it
        simp only at he
        rcases List.mem_append.1 he with he | he
        · rcases List.mem_append.1 he with he | he
          · exact Or.inl (hcalls e he)
          · simp at he; subst he; exact Or.inl hjoin
        · exact Or.inr ⟨now, vr, vo, he⟩
    · simp only [hth] at he
      exact Or.inl (hcalls e he)

/-- What the first step of an iteration does: either nothing, or one call of
`ws_connect` on the remote leg, made when the interval has elapsed, after
which the remote leg is not connected and the attempt time is `now`. -/
theorem tick_remote_cases (relay : ws_relay) (now : Int) (v : Option Nat) :
    tick_remote relay now v = (relay, []) ∨
    (relay.remote_conn.state ≠ WS_STATE_CONNECTED ∧
      time_t_sub now relay.last_reconnect_attempt ≥ relay.config.reconnect_interval ∧
      (tick_remote relay now v).1.remote_conn.state ≠ WS_STATE_CONNECTED ∧
      (tick_remote relay now v).1.obs_conn = relay.obs_conn ∧
      (tick_remote relay now v).1.config = relay.config ∧
      (tick_remote relay now v).1.last_reconnect_attempt = now ∧
      ∃ rest, (tick_remote relay now v).2 = Effect.ws_connect_call Leg.remote now relay :: rest ∧
        ∀ e ∈ rest, e.notCall) := by
  unfold tick_remote
  by_cases hc : relay.remote_conn.state ≠ WS_STATE_CONNECTED ∧
      relay.remote_conn.state ≠ WS_STATE_CONNECTING ∧ interval_elapsed relay now = true
  · by_cases ha : address_configured relay.config.remote_ws_address = true
    · right
      rw [if_pos hc, if_pos ha]
      have hst := ws_connect_state relay Leg.remote relay.config.remote_ws_address v
      have hot := ws_connect_other relay Leg.remote relay.config.remote_ws_address v
      have hcf := ws_connect_config relay Leg.remote relay.config.remote_ws_address v
      have hef := ws_connect_notCall relay Leg.remote relay.config.remote_ws_address v
      have hel : time_t_sub now relay.last_reconnect_attempt ≥
          relay.config.reconnect_interval := by
        simpa [interval_elapsed] using hc.2.2
      refine ⟨hc.1, hel, ?_, ?_, hcf.1, rfl, _, rfl, hef⟩
      · simp only [ws_relay.conn] at hst
        intro hcon
        simp only [] at hcon
        rw [hcon] at hst
        rcases hst with h | h | h
        · exact absurd h (by decide)
        · exact absurd h (by decide)
        · exact hc.1 h.symm
      · simpa [ws_relay.conn, Leg.other] using hot
    · left
      rw [if_pos hc, if_neg ha]
  · left
    rw [if_neg hc]

/-- What the second step of an iteration does: either nothing, or one call of
`ws_connect` on the OBS leg, made while the remote leg is connected and when
the interval has elapsed, after which the attempt time is `now`. -/
theorem tick_obs_cases (relay : ws_relay) (now : Int) (v : Option Nat) :
    tick_obs relay now v = (relay, []) ∨
    (relay.remote_conn.state = WS_STATE_CONNECTED ∧
      time_t_sub now relay.last_reconnect_attempt ≥ relay.config.reconnect_interval ∧
      (tick_obs relay now v).1.remote_conn = relay.remote_conn ∧
      (tick_obs relay now v).1.config = relay.config ∧
      (tick_obs relay now v).1.last_reconnect_attempt = now ∧
      ∃ rest, (tick_obs relay now v).2 = Effect.ws_connect_call Leg.obs now relay :: rest ∧
        ∀ e ∈ rest, e.notCall) := by
  unfold tick_obs
  by_cases hc : relay.remote_conn.state = WS_STATE_CONNECTED ∧
      relay.obs_conn.state ≠ WS_STATE_CONNECTED ∧
      relay.obs_conn.state ≠ WS_STATE_CONNECTING ∧ interval_elapsed relay now = true
  · by_cases ha : address_configured relay.config.local_obs_address = true
    · right
      rw [if_pos hc, if_pos ha]
      have hot := ws_connect_other relay Leg.obs relay.config.local_obs_address v
      have hcf := ws_connect_config relay Leg.obs relay.config.local_obs_address v
      have hef := ws_connect_notCall relay Leg.obs relay.config.local_obs_address v
      have hel : time_t_sub now relay.last_reconnect_attempt ≥
          relay.config.reconnect_interval := by
        simpa [interval_elapsed] using hc.2.2.2
      refine ⟨hc.1, hel, ?_, hcf.1, rfl, _, rfl, hef⟩
      simpa [ws_relay.conn, Leg.other] using hot
    · left
      rw [if_pos hc, if_neg ha]
  · left
    rw [if_neg hc]

/-- The last step of an iteration touches the OBS connection only and makes
no call of `ws_connect`. -/
theorem tick_cascade_frame (relay : ws_relay) :
    (tick_cascade relay).1.remote_conn = relay.remote_conn ∧
    (tick_cascade relay).1.config = relay.config ∧
    (tick_cascade relay).1.last_reconnect_attempt = relay.last_reconnect_attempt ∧
    ∀ e ∈ (tick_cascade relay).2, e.notCall := by
  unfold tick_cascade
  cases hw : relay.obs_conn.wsi with
  | none => simp
  | some w =>
    by_cases hc : relay.remote_conn.state ≠ WS_STATE_CONNECTED ∧
        relay.obs_conn.state = WS_STATE_CONNECTED
    · simp only [if_pos hc]
      refine ⟨trivial, trivial, trivial, ?_⟩
      intro e he l t s
      simp at he
      subst he
      simp
    · simp only [if_neg hc]
      simp

theorem ws_relay_tick_eq (relay : ws_relay) (now : Int) (vr vo : Option Nat) :
    ws_relay_tick relay now vr vo =
      ((tick_cascade (tick_obs (tick_remote relay now vr).1 now vo).1).1,
        (tick_remote relay now vr).2 ++ (tick_obs (tick_remote relay now vr).1 now vo).2 ++
          (tick_cascade (tick_obs (tick_remote relay now vr).1 now vo).1).2) := by
  rfl

/-- One scheduler iteration makes no call of `ws_connect`, or exactly one on
the remote leg while that leg is not connected, or exactly one on the OBS leg
while the remote leg is connected; a call is made only when the interval has
elapsed, and sets the attempt time to `now`. -/
theorem ws_relay_tick_cases (relay : ws_relay) (now : Int) (vr vo : Option Nat) :
    (ws_relay_tick relay now vr vo).1.config = relay.config ∧
    (((∀ e ∈ (ws_relay_tick relay now vr vo).2, e.notCall) ∧
        (ws_relay_tick relay now vr vo).1.last_reconnect_attempt =
          relay.last_reconnect_attempt) ∨
      (∃ leg rest, (ws_relay_tick relay now vr vo).2 =
          Effect.ws_connect_call leg now relay :: rest ∧
        (∀ e ∈ rest, e.notCall) ∧
        (leg = Leg.obs ↔ relay.remote_conn.state = WS_STATE_CONNECTED) ∧
        time_t_sub now relay.last_reconnect_attempt ≥ relay.config.reconnect_interval ∧
        (ws_relay_tick relay now vr vo).1.last_reconnect_attempt = now)) := by
  rw [ws_relay_tick_eq]
  rcases tick_remote_cases relay now vr with h1 | ⟨hst, hel, hst1, _, hcf1, hl1, rest1, hlog1, hrest1⟩
  · rw [h1]
    obtain ⟨_, hcf3, hl3, hn3⟩ := tick_cascade_frame (tick_obs relay now vo).1
    rcases tick_obs_cases relay now vo with h2 | ⟨hst, hel, _, hcf2, hl2, rest2, hlog2, hrest2⟩
    · rw [h2] at hcf3 hl3 hn3 ⊢
      refine ⟨hcf3, Or.inl ⟨?_, hl3⟩⟩
      simpa using hn3
    · refine ⟨hcf3.trans hcf2, Or.inr ⟨Leg.obs, rest2 ++ (tick_cascade (tick_obs relay now vo).1).2,
        ?_, ?_, ?_, hel, hl3.trans hl2⟩⟩
      · simp [hlog2]
      · intro e he
        rcases List.mem_append.1 he with he | he
        · exact hrest2 e he
        · exact hn3 e he
      · simp [hst]
  · have h2 : tick_obs (tick_remote relay now vr).1 now vo = ((tick_remote relay now vr).1, []) := by
      rcases tick_obs_cases (tick_remote relay now vr).1 now vo with h2 | ⟨hc, _⟩
      · exact h2
      · exact absurd hc hst1
    obtain ⟨_, hcf3, hl3, hn3⟩ := tick_cascade_frame (tick_remote relay now vr).1
    rw [h2]
    refine ⟨hcf3.trans hcf1, Or.inr ⟨Leg.remote,
      rest1 ++ (tick_cascade (tick_remote relay now vr).1).2, ?_, ?_, ?_, hel, hl3.trans hl1⟩⟩
    · simp [hlog1]
    · intro e he
      rcases List.mem_append.1 he with he | he
      · exact hrest1 e he
      · exact hn3 e he
    · simp [hst]

/-! ## Scheduler: claims C2, C3 and C5 -/

theorem tick_obs_call_remote_connected (relay : ws_relay) (t : Int) (vr vo : Option Nat)
    (now : Int) (snap : ws_relay)
    (h : Effect.ws_connect_call Leg.obs now snap ∈ (ws_relay_tick relay t vr vo).2) :
    snap.remote_conn.state = WS_STATE_CONNECTED := by
  obtain ⟨_, hc | ⟨leg, rest, hlog, hrest, hleg, _, _⟩⟩ := ws_relay_tick_cases relay t vr vo
  · exact absurd rfl (hc.1 _ h Leg.obs now snap)
  · rw [hlog] at h
    rcases List.mem_cons.1 h with h | h
    · injection h with h1 h2 h3
      subst h1 h3
      exact hleg.1 rfl
    · exact absurd rfl (hrest _ h Leg.obs now snap)

theorem step_obs_call_remote_connected (LWS_PRE : Nat) (relay : ws_relay) (ev : Event)
    (now : Int) (snap : ws_relay)
    (h : Effect.ws_connect_call Leg.obs now snap ∈ (step LWS_PRE relay ev).2) :
    snap.remote_conn.state = WS_STATE_CONNECTED := by
  cases ev with
  | start ok => exact absurd rfl (ws_relay_start_notCall relay ok _ h Leg.obs now snap)
  | stop last =>
    rcases ws_relay_stop_log relay last _ h with hn | ⟨t, vr, vo, ht⟩
    · exact absurd rfl (hn Leg.obs now snap)
    · exact tick_obs_call_remote_connected _ t vr vo now snap ht
  | connect leg a v => exact absurd rfl (ws_connect_notCall relay leg a v _ h Leg.obs now snap)
  | callback_obs wsi reason input wr =>
    exact absurd rfl (ws_callback_notCall LWS_PRE _ relay wsi reason input wr _ h Leg.obs now snap)
  | callback_remote wsi reason input wr =>
    exact absurd rfl (ws_callback_notCall LWS_PRE _ relay wsi reason input wr _ h Leg.obs now snap)
  | tick t vr vo => exact tick_obs_call_remote_connected relay t vr vo now snap h

theorem run_cons (LWS_PRE : Nat) (relay : ws_relay) (e : Event) (es : List Event) :
    run LWS_PRE relay (e :: es) =
      ((run LWS_PRE (step LWS_PRE relay e).1 es).1,
        (step LWS_PRE relay e).2 ++ (run LWS_PRE (step LWS_PRE relay e).1 es).2) := by
  rfl

/-- C2: in every run, each call of `ws_connect` on the OBS leg made by the
scheduler is made in a state where the remote leg is connected; and an
iteration that calls `ws_connect` on the remote leg makes no call on the OBS
leg. -/
theorem local_connect_only_when_remote_connected (LWS_PRE : Nat) (relay : ws_relay) :
    (∀ (evs : List Event) (now : Int) (snap : ws_relay),
      Effect.ws_connect_call Leg.obs now snap ∈ (run LWS_PRE relay evs).2 →
        snap.remote_conn.state = WS_STATE_CONNECTED) ∧
    (∀ (now : Int) (vr vo : Option Nat) (t1 t2 : Int) (s1 s2 : ws_relay),
      Effect.ws_connect_call Leg.remote t1 s1 ∈ (ws_relay_tick relay now vr vo).2 →
        Effect.ws_connect_call Leg.obs t2 s2 ∉ (ws_relay_tick relay now vr vo).2) := by
  constructor
  · intro evs
    induction evs generalizing relay with
    | nil => intro now snap h; simp [run] at h
    | cons e es ih =>
      intro now snap h
      rw [run_cons] at h
      rcases List.mem_append.1 h with h | h
      · exact step_obs_call_remote_connected LWS_PRE relay e now snap h
      · exact ih _ now snap h
  · intro now vr vo t1 t2 s1 s2 h1 h2
    obtain ⟨_, hc | ⟨leg, rest, hlog, hrest, hleg, _, _⟩⟩ := ws_relay_tick_cases relay now vr vo
    · exact hc.1 _ h1 _ _ _ rfl
    · rw [hlog] at h1 h2
      rcases List.mem_cons.1 h1 with h1 | h1
      · rcases List.mem_cons.1 h2 with h2 | h2
        · injection h1 with a1 _ _
          injection h2 with a2 _ _
          rw [← a1] at a2
          exact absurd a2 (by decide)
        · exact hrest _ h2 _ _ _ rfl
      · exact hrest _ h1 _ _ _ rfl

/-- Witness of C2: in the run `forward_events` the scheduler calls
`ws_connect` on the OBS leg at time 105, in the state reached after the
first three events, where the remote leg is connected. -/
theorem local_connect_only_when_remote_connected_witness :
    Effect.ws_connect_call Leg.obs 105 (run 16 demo_relay (forward_events.take 3)).1 ∈
      (run 16 demo_relay forward_events).2 ∧
    (run 16 demo_relay (forward_events.take 3)).1.remote_conn.state = WS_STATE_CONNECTED :=
  ⟨by decide, (local_connect_only_when_remote_connected 16 demo_relay).1 forward_events 105
    (run 16 demo_relay (forward_events.take 3)).1 (by decide)⟩

theorem connect_calls_append (l1 l2 : List Effect) :
    connect_calls (l1 ++ l2) = connect_calls l1 ++ connect_calls l2 := by
  simp [connect_calls, List.filterMap_append]

theorem ws_callback_frame (LWS_PRE : Nat) (dest : Leg) (relay : ws_relay) (wsi : Nat)
    (reason : lws_callback_reasons) (input : List Byte) (wr : Nat → Int) :
    (ws_callback LWS_PRE dest relay wsi reason input wr).2.1.config = relay.config ∧
    (ws_callback LWS_PRE dest relay wsi reason input wr).2.1.last_reconnect_attempt =
      relay.last_reconnect_attempt := by
  unfold ws_callback
  cases hl : lws_get_opaque_user_data relay.context wsi with
  | none => simp
  | some leg =>
    cases reason with
    | LWS_CALLBACK_CLIENT_RECEIVE =>
      cases hw : (relay.conn dest).wsi with
      | none => simp [hw]
      | some dw =>
        by_cases hs : (relay.conn dest).state = WS_STATE_CONNECTED
        · cases dest <;> simp [hs, hw, ws_relay.setConn]
        · simp [hs, hw]
    | LWS_CALLBACK_CLIENT_WRITEABLE =>
      by_cases hb : (relay.conn leg).buffers.isEmpty = true
      · simp [hb]
      · cases leg <;> simp [hb, ws_relay.setConn]
    | _ => cases leg <;> simp [ws_relay.setConn]

/-- What one event of the event loop does to the attempt time and to the
list of scheduler calls: nothing, or one call at the clock reading of the
iteration, made when the interval has elapsed since the attempt time. -/
theorem loop_step_cases (LWS_PRE : Nat) (relay : ws_relay) (e : Event)
    (he : is_loop_event e = true) :
    (step LWS_PRE relay e).1.config = relay.config ∧
    ((connect_calls (step LWS_PRE relay e).2 = [] ∧
        (step LWS_PRE relay e).1.last_reconnect_attempt = relay.last_reconnect_attempt) ∨
      (∃ leg now, connect_calls (step LWS_PRE relay e).2 = [(leg, now)] ∧
        now ∈ tick_times [e] ∧
        time_t_sub now relay.last_reconnect_attempt ≥ relay.config.reconnect_interval ∧
        (step LWS_PRE relay e).1.last_reconnect_attempt = now)) := by
  cases e with
  | start ok => simp [is_loop_event] at he
  | stop => simp [is_loop_event] at he
  | connect leg a v => simp [is_loop_event] at he
  | callback_obs wsi reason input wr =>
    have hf := ws_callback_frame LWS_PRE Leg.remote relay wsi reason input wr
    exact ⟨hf.1, Or.inl ⟨connect_calls_of_notCall _
      (ws_callback_notCall LWS_PRE _ relay wsi reason input wr), hf.2⟩⟩
  | callback_remote wsi reason input wr =>
    have hf := ws_callback_frame LWS_PRE Leg.obs relay wsi reason input wr
    exact ⟨hf.1, Or.inl ⟨connect_calls_of_notCall _
      (ws_callback_notCall LWS_PRE _ relay wsi reason input wr), hf.2⟩⟩
  | tick t vr vo =>
    obtain ⟨hcf, ⟨hn, hl⟩ | ⟨leg, rest, hlog, hrest, _, hel, hl⟩⟩ :=
      ws_relay_tick_cases relay t vr vo
    · exact ⟨hcf, Or.inl ⟨connect_calls_of_notCall _ hn, hl⟩⟩
    · refine ⟨hcf, Or.inr ⟨leg, t, ?_, by simp [tick_times], hel, hl⟩⟩
      simp only [step]
      rw [hlog]
      have hr := connect_calls_of_notCall rest hrest
      simp only [connect_calls] at hr ⊢
      simp [List.filterMap_cons, hr]

theorem tick_times_cons (e : Event) (es : List Event) :
    tick_times (e :: es) = tick_times [e] ++ tick_times es := by
  simp only [tick_times]
  rw [← List.filterMap_append]
  rfl

theorem time_t_sub_le (a b : Int) (h : b ≤ a) : time_t_sub a b ≤ a - b := by
  unfold time_t_sub
  omega

theorem time_t_sub_eq (a b : Int) (hlo : -9223372036854775808 ≤ a - b)
    (hhi : a - b < 9223372036854775808) : time_t_sub a b = a - b := by
  unfold time_t_sub
  omega

/-- Every scheduler call of a run of the event loop is made at least one
interval after any time `T` that is no later than the attempt time at the
start of the run, when the clock readings of the run are non-decreasing and
none is earlier than that attempt time. -/
theorem run_calls_after (LWS_PRE : Nat) (evs : List Event) :
    ∀ (relay : ws_relay) (T : Int), (∀ e ∈ evs, is_loop_event e = true) →
      T ≤ relay.last_reconnect_attempt →
      (∀ t ∈ tick_times evs, relay.last_reconnect_attempt ≤ t) →
      (tick_times evs).Pairwise (· ≤ ·) →
      ∀ b ∈ connect_calls (run LWS_PRE relay evs).2,
        b.2 - T ≥ relay.config.reconnect_interval := by
  induction evs with
  | nil => intro relay T _ _ _ _ b hb; simp [run, connect_calls] at hb
  | cons e es ih =>
    intro relay T hloop hT hticks hclock b hb
    rw [run_cons, connect_calls_append] at hb
    have hloop' : ∀ x ∈ es, is_loop_event x = true := fun x hx => hloop x (by simp [hx])
    have hticks' : ∀ t ∈ tick_times es, relay.last_reconnect_attempt ≤ t := fun t ht =>
      hticks t (by rw [tick_times_cons]; exact List.mem_append.2 (Or.inr ht))
    rw [tick_times_cons, List.pairwise_append] at hclock
    obtain ⟨_, hclock', hcross⟩ := hclock
    obtain ⟨hcf, ⟨hnil, hl⟩ | ⟨leg, now, hcalls, hnow, hel, hl⟩⟩ :=
      loop_step_cases LWS_PRE relay e (hloop e (by simp))
    · rw [hnil, List.nil_append] at hb
      have := ih (step LWS_PRE relay e).1 T hloop' (by rw [hl]; exact hT)
        (by rw [hl]; exact hticks') hclock' b hb
      rwa [hcf] at this
    · have hlast : relay.last_reconnect_attempt ≤ now :=
        hticks now (by rw [tick_times_cons]; exact List.mem_append.2 (Or.inl hnow))
      have hdiff := time_t_sub_le now relay.last_reconnect_attempt hlast
      rw [hcalls] at hb
      rcases List.mem_append.1 hb with hb | hb
      · simp at hb
        subst hb
        show now - T ≥ relay.config.reconnect_interval
        omega
      · have := ih (step LWS_PRE relay e).1 T hloop' (by rw [hl]; omega)
          (by rw [hl]; exact fun t ht => hcross now hnow t ht) hclock' b hb
        rwa [hcf] at this

/-- C5: in a run of the event loop (scheduler iterations with non-decreasing
clock readings, interleaved with callbacks), any two calls of `ws_connect`
the scheduler makes on the same leg, the second after the first, are at least
`reconnect_interval` apart. -/
theorem reconnect_attempts_spaced (LWS_PRE : Nat) (relay : ws_relay) (evs : List Event)
    (hloop : ∀ e ∈ evs, is_loop_event e = true)
    (hclock : (tick_times evs).Pairwise (· ≤ ·)) :
    (connect_calls (run LWS_PRE relay evs).2).Pairwise
      (fun a b => a.1 = b.1 → b.2 - a.2 ≥ relay.config.reconnect_interval) := by
  induction evs generalizing relay with
  | nil => simp [run, connect_calls]
  | cons e es ih =>
    have hloop' : ∀ x ∈ es, is_loop_event x = true := fun x hx => hloop x (by simp [hx])
    rw [tick_times_cons, List.pairwise_append] at hclock
    obtain ⟨_, hclock', hcross⟩ := hclock
    rw [run_cons, connect_calls_append, List.pairwise_append]
    obtain ⟨hcf, ⟨hnil, hl⟩ | ⟨leg, now, hcalls, hnow, hel, hl⟩⟩ :=
      loop_step_cases LWS_PRE relay e (hloop e (by simp))
    · have := ih (step LWS_PRE relay e).1 hloop' hclock'
      rw [hcf] at this
      refine ⟨by rw [hnil]; exact List.Pairwise.nil, this, ?_⟩
      intro a ha
      rw [hnil] at ha
      simp at ha
    · have := ih (step LWS_PRE relay e).1 hloop' hclock'
      rw [hcf] at this
      refine ⟨by rw [hcalls]; exact List.pairwise_singleton _ _, this, ?_⟩
      intro a ha b hb _
      rw [hcalls] at ha
      simp at ha
      subst ha
      have := run_calls_after LWS_PRE es (step LWS_PRE relay e).1 now hloop'
        (by rw [hl]) (by rw [hl]; exact fun t ht => hcross now hnow t ht) hclock' b hb
      rwa [hcf] at this

/-- Witness of C5: in `retry_events` the scheduler calls `ws_connect` on the
remote leg at times 100 and 105, not at time 102. -/
theorem reconnect_attempts_spaced_witness :
    connect_calls (run 16 demo_relay retry_events).2 = [(Leg.remote, 100), (Leg.remote, 105)] ∧
    (connect_calls (run 16 demo_relay retry_events).2).Pairwise
      (fun a b => a.1 = b.1 → b.2 - a.2 ≥ demo_relay.config.reconnect_interval) :=
  ⟨by decide, reconnect_attempts_spaced 16 demo_relay retry_events (by decide) (by decide)⟩

/-! ## Handles of connected legs: claim C10 -/

theorem ws_connect_keeps_handle (relay : ws_relay) (leg : Leg) (a : Option CStr)
    (v : Option Nat) (h : connected_has_handle relay) :
    connected_has_handle (ws_connect relay leg a v).2.1 := by
  unfold ws_connect
  cases a with
  | none => exact h
  | some a =>
    by_cases hr : (parse_ws_url a).ret = true
    · obtain ⟨ho, hm⟩ := h
      cases v with
      | none =>
        cases leg
        · simpa [hr, connected_has_handle, ws_relay.setConn] using hm
        · simpa [hr, connected_has_handle, ws_relay.setConn] using ho
      | some w =>
        cases leg
        · simpa [hr, connected_has_handle, ws_relay.setConn] using hm
        · simpa [hr, connected_has_handle, ws_relay.setConn] using ho
    · cases leg
      · simpa [hr, connected_has_handle, ws_relay.setConn, ws_relay.conn] using h
      · simpa [hr, connected_has_handle, ws_relay.setConn, ws_relay.conn] using h

theorem tick_keeps_handle (relay : ws_relay) (now : Int) (vr vo : Option Nat)
    (h : connected_has_handle relay) :
    connected_has_handle (ws_relay_tick relay now vr vo).1 := by
  have h1 : connected_has_handle (tick_remote relay now vr).1 := by
    unfold tick_remote
    split_ifs
    · exact ws_connect_keeps_handle relay Leg.remote _ vr h
    · exact h
    · exact h
  have h2 : connected_has_handle (tick_obs (tick_remote relay now vr).1 now vo).1 := by
    unfold tick_obs
    split_ifs
    · exact ws_connect_keeps_handle _ Leg.obs _ vo h1
    · exact h1
    · exact h1
  rw [ws_relay_tick_eq]
  show connected_has_handle (tick_cascade _).1
  generalize (tick_obs (tick_remote relay now vr).1 now vo).1 = r2 at h2
  unfold tick_cascade
  cases hw : r2.obs_conn.wsi with
  | none => exact h2
  | some w =>
    split_ifs
    · exact ⟨by simp, h2.2⟩
    · exact h2

theorem callback_keeps_handle (LWS_PRE : Nat) (dest : Leg) (relay : ws_relay) (wsi : Nat)
    (reason : lws_callback_reasons) (input : List Byte) (wr : Nat → Int)
    (h : connected_has_handle relay)
    (hg : reason = LWS_CALLBACK_CLIENT_ESTABLISHED →
      ∀ leg, lws_get_opaque_user_data relay.context wsi = some leg → (relay.conn leg).wsi ≠ none) :
    connected_has_handle (ws_callback LWS_PRE dest relay wsi reason input wr).2.1 := by
  unfold ws_callback
  cases hl : lws_get_opaque_user_data relay.context wsi with
  | none => exact h
  | some leg =>
    cases reason with
    | LWS_CALLBACK_CLIENT_ESTABLISHED =>
      have hw := hg rfl leg hl
      cases leg
      · exact ⟨fun _ => hw, h.2⟩
      · exact ⟨h.1, fun _ => hw⟩
    | LWS_CALLBACK_CLIENT_RECEIVE =>
      cases hw : (relay.conn dest).wsi with
      | none => simpa [hw] using h
      | some dw =>
        by_cases hs : (relay.conn dest).state = WS_STATE_CONNECTED
        · obtain ⟨ho, hm⟩ := h
          cases dest
          · simp only [ws_relay.conn] at hw hs
            simpa [hw, hs, ws_relay.setConn, ws_relay.conn, connected_has_handle] using hm
          · simp only [ws_relay.conn] at hw hs
            simpa [hw, hs, ws_relay.setConn, ws_relay.conn, connected_has_handle] using ho
        · simpa [hw, hs] using h
    | LWS_CALLBACK_CLIENT_WRITEABLE =>
      by_cases hb : (relay.conn leg).buffers.isEmpty = true
      · simpa [hb] using h
      · cases leg
        · simp only [ws_relay.conn] at hb
          simpa [hb, ws_relay.setConn, ws_relay.conn, connected_has_handle] using h
        · simp only [ws_relay.conn] at hb
          simpa [hb, ws_relay.setConn, ws_relay.conn, connected_has_handle] using h
    | LWS_CALLBACK_CLIENT_CONNECTION_ERROR =>
      obtain ⟨ho, hm⟩ := h
      cases leg
      · simpa [ws_relay.setConn, ws_relay.conn, connected_has_handle] using hm
      · simpa [ws_relay.setConn, ws_relay.conn, connected_has_handle] using ho
    | LWS_CALLBACK_CLIENT_CLOSED =>
      obtain ⟨ho, hm⟩ := h
      cases leg
      · simpa [ws_relay.setConn, ws_relay.conn, connected_has_handle] using hm
      · simpa [ws_relay.setConn, ws_relay.conn, connected_has_handle] using ho
    | LWS_CALLBACK_CLOSED =>
      obtain ⟨ho, hm⟩ := h
      cases leg
      · simpa [ws_relay.setConn, ws_relay.conn, connected_has_handle] using hm
      · simpa [ws_relay.setConn, ws_relay.conn, connected_has_handle] using ho
    | other => exact h

theorem start_keeps_handle (relay : ws_relay) (ok : Bool) (h : connected_has_handle relay) :
    connected_has_handle (ws_relay_start relay ok).2.1 := by
  unfold ws_relay_start
  split_ifs <;> exact h

theorem stop_keeps_handle (relay : ws_relay) (last : Option (Int × Option Nat × Option Nat))
    (h : connected_has_handle relay) :
    connected_has_handle (ws_relay_stop relay last).1 :=
  ws_relay_stop_induct connected_has_handle relay last h
    ⟨by simp [stop_close_connections], by simp [stop_close_connections]⟩
    (fun r now vr vo hr => tick_keeps_handle r now vr vo hr) (fun _ hr => hr)

theorem step_keeps_handle (LWS_PRE : Nat) (relay : ws_relay) (e : Event)
    (h : connected_has_handle relay) (hg : established_without_handle relay e = false) :
    connected_has_handle (step LWS_PRE relay e).1 := by
  cases e with
  | start ok => exact start_keeps_handle relay ok h
  | stop last => exact stop_keeps_handle relay last h
  | tick now vr vo => exact tick_keeps_handle relay now vr vo h
  | connect leg a v => exact ws_connect_keeps_handle relay leg a v h
  | callback_obs wsi reason input wr =>
    refine callback_keeps_handle LWS_PRE Leg.remote relay wsi reason input wr h ?_
    rintro rfl leg hl
    simp only [established_without_handle, hl] at hg
    intro hn
    simp [hn] at hg
  | callback_remote wsi reason input wr =>
    refine callback_keeps_handle LWS_PRE Leg.obs relay wsi reason input wr h ?_
    rintro rfl leg hl
    simp only [established_without_handle, hl] at hg
    intro hn
    simp [hn] at hg

theorem run_keeps_handle (LWS_PRE : Nat) (evs : List Event) :
    ∀ relay : ws_relay, connected_has_handle relay →
      established_with_handle LWS_PRE relay evs = true →
      connected_has_handle (run LWS_PRE relay evs).1 := by
  induction evs with
  | nil => intro relay h _; exact h
  | cons e es ih =>
    intro relay h hg
    simp only [established_with_handle, Bool.and_eq_true, Bool.not_eq_true'] at hg
    rw [run_cons]
    exact ih _ (step_keeps_handle LWS_PRE relay e h hg.1) hg.2

theorem create_has_handle (config : Option ws_relay_config_t) (mutex_ok context_ok : Bool)
    (relay : ws_relay) (h : ws_relay_create config mutex_ok context_ok = some relay) :
    connected_has_handle relay := by
  unfold ws_relay_create at h
  cases config with
  | none => simp at h
  | some cfg =>
    cases mutex_ok <;> cases context_ok <;> simp at h
    subst h
    exact ⟨by simp [ws_connection_init], by simp [ws_connection_init]⟩

/-- In a state reached from `ws_relay_create` by start, stop, scheduler
iterations, calls of `ws_connect` and callbacks of the transport, where no
established callback arrived for a connection whose handle was null at that
moment, a connected leg has a transport handle. The code does not exclude such
a callback. -/
theorem connected_has_handle_of_established_with_handle (LWS_PRE : Nat)
    (config : Option ws_relay_config_t)
    (mutex_ok context_ok : Bool) (relay : ws_relay) (evs : List Event) (leg : Leg)
    (hcreate : ws_relay_create config mutex_ok context_ok = some relay)
    (hest : established_with_handle LWS_PRE relay evs = true)
    (hconn : ((run LWS_PRE relay evs).1.conn leg).state = WS_STATE_CONNECTED) :
    ((run LWS_PRE relay evs).1.conn leg).wsi ≠ none := by
  have h := run_keeps_handle LWS_PRE evs relay
    (create_has_handle config mutex_ok context_ok relay hcreate) hest
  cases leg
  · exact h.1 hconn
  · exact h.2 hconn

/-- A run where the lemma above applies: `forward_events` from the relay
created from `demo_config`, and its remote leg. -/
theorem connected_has_handle_of_established_with_handle_example :
    ((run 16 demo_relay forward_events).1.conn Leg.remote).state = WS_STATE_CONNECTED ∧
    ((run 16 demo_relay forward_events).1.conn Leg.remote).wsi ≠ none :=
  ⟨by decide, connected_has_handle_of_established_with_handle 16 (some demo_config) true true
    demo_relay forward_events Leg.remote (by decide) (by decide) (by decide)⟩

/-- A leg connected with a null handle, reached through a stop: the relay
created from `demo_config` is started, the scheduler opens the remote
connection, the relay is stopped and started again, and the transport reports
the connection established. -/
theorem stale_remote_connected_with_null_handle :
    ws_relay_create (some demo_config) true true = some demo_relay ∧
    (run 16 demo_relay stale_remote_events).1.remote_conn.state = WS_STATE_CONNECTED ∧
    (run 16 demo_relay stale_remote_events).1.remote_conn.wsi = none := by
  decide

/-- C10: the code does not keep a connected leg from having a null handle.
The relay created from `demo_config` is started and its loop thread runs the
iterations `late_close_loop_events`, which contain scheduler steps and
callbacks of the transport only. The close of the earlier OBS connection
(handle 2) is reported after the scheduler opened the next one (handle 4), and
sets the handle of the OBS leg to null; the established callback of handle 4
then sets the state to connected. The OBS leg ends connected with a null
handle while `ws_relay_is_connected` answers true; a later scheduler step
changes nothing and makes no call, and a payload received from the remote side
is dropped. -/
theorem connected_with_null_handle_by_loop_events :
    ws_relay_create (some demo_config) true true = some demo_relay ∧
    late_close_loop_events.all is_loop_event = true ∧
    late_close_relay.running = true ∧
    late_close_relay.obs_conn.state = WS_STATE_CONNECTED ∧
    late_close_relay.obs_conn.wsi = none ∧
    late_close_relay.remote_conn.state = WS_STATE_CONNECTED ∧
    late_close_relay.remote_conn.wsi = some 3 ∧
    ws_relay_is_connected late_close_relay = true ∧
    ws_relay_tick late_close_relay 200 (some 8) (some 9) = (late_close_relay, []) ∧
    ws_callback_remote 16 late_close_relay 3 LWS_CALLBACK_CLIENT_RECEIVE [104, 105] writes_ok =
      (0, late_close_relay, []) := by
  decide

/-! ## `ws_connect` on a rejected address: claim C13 -/

/-- C13: when `parse_ws_url` rejects the address, `ws_connect` returns
false, makes no request to the transport, and leaves the state, the handle and
the queue of the connection as they were; the other connection is
untouched. -/
theorem ws_connect_parse_failure (relay : ws_relay) (leg : Leg) (a : CStr) (v : Option Nat)
    (hrej : (parse_ws_url a).ret = false) :
    (ws_connect relay leg (some a) v).1 = false ∧
    (ws_connect relay leg (some a) v).2.2 = [] ∧
    ((ws_connect relay leg (some a) v).2.1.conn leg).state = (relay.conn leg).state ∧
    ((ws_connect relay leg (some a) v).2.1.conn leg).wsi = (relay.conn leg).wsi ∧
    ((ws_connect relay leg (some a) v).2.1.conn leg).buffers = (relay.conn leg).buffers ∧
    (ws_connect relay leg (some a) v).2.1.conn leg.other = relay.conn leg.other ∧
    (ws_connect relay leg (some a) v).2.1.context = relay.context := by
  unfold ws_connect
  cases leg <;> simp [hrej, ws_relay.setConn, ws_relay.conn, Leg.other]

/-- Witness of C13: the address `http://relay.example` on the remote leg of a
relay whose remote leg is connected with a frame queued. -/
theorem ws_connect_parse_failure_witness :
    (ws_connect (run 16 demo_relay forward_events).1 Leg.remote
      (some "http://relay.example".toList) (some 9)).1 = false ∧
    (ws_connect (run 16 demo_relay forward_events).1 Leg.remote
      (some "http://relay.example".toList) (some 9)).2.2 = [] ∧
    ((ws_connect (run 16 demo_relay forward_events).1 Leg.remote
      (some "http://relay.example".toList) (some 9)).2.1.conn Leg.remote).state =
        ((run 16 demo_relay forward_events).1.conn Leg.remote).state ∧
    ((ws_connect (run 16 demo_relay forward_events).1 Leg.remote
      (some "http://relay.example".toList) (some 9)).2.1.conn Leg.remote).wsi =
        ((run 16 demo_relay forward_events).1.conn Leg.remote).wsi ∧
    ((ws_connect (run 16 demo_relay forward_events).1 Leg.remote
      (some "http://relay.example".toList) (some 9)).2.1.conn Leg.remote).buffers =
        ((run 16 demo_relay forward_events).1.conn Leg.remote).buffers ∧
    (ws_connect (run 16 demo_relay forward_events).1 Leg.remote
      (some "http://relay.example".toList) (some 9)).2.1.conn Leg.remote.other =
        (run 16 demo_relay forward_events).1.conn Leg.remote.other ∧
    (ws_connect (run 16 demo_relay forward_events).1 Leg.remote
      (some "http://relay.example".toList) (some 9)).2.1.context =
        (run 16 demo_relay forward_events).1.context :=
  ws_connect_parse_failure (run 16 demo_relay forward_events).1 Leg.remote
    "http://relay.example".toList (some 9) (by decide)

/-! ## Start and stop: claims C15, C16 and C17 -/

/-- C15: on a relay that is not running and whose local or remote address is
missing or empty, `ws_relay_start` returns false, starts no thread and leaves
the relay as it was (`running` false, attempt time and both legs
unchanged). -/
theorem ws_relay_start_unconfigured (relay : ws_relay) (thread_ok : Bool)
    (hrun : relay.running = false)
    (hcfg : relay.config.local_obs_address = none ∨ relay.config.local_obs_address = some [] ∨
      relay.config.remote_ws_address = none ∨ relay.config.remote_ws_address = some []) :
    ws_relay_start relay thread_ok = (false, relay, []) ∧
    (ws_relay_start relay thread_ok).2.1.running = false ∧
    Effect.pthread_create ∉ (ws_relay_start relay thread_ok).2.2 := by
  have h : ws_relay_start relay thread_ok = (false, relay, []) := by
    unfold ws_relay_start
    rcases hcfg with h | h | h | h
    · simp [hrun, h, nonempty_str]
    · simp [hrun, h, nonempty_str]
    · by_cases hl : nonempty_str relay.config.local_obs_address = true
      · simp [hrun, h, hl, nonempty_str]
      · simp [hrun, hl]
    · by_cases hl : nonempty_str relay.config.local_obs_address = true
      · simp [hrun, h, hl, nonempty_str]
      · simp [hrun, hl]
  rw [h]
  exact ⟨rfl, hrun, by simp⟩

/-- Witness of C15: a relay with the default local address and an empty
remote address. -/
theorem ws_relay_start_unconfigured_witness :
    ws_relay_start unconfigured_relay true = (false, unconfigured_relay, []) ∧
    (ws_relay_start unconfigured_relay true).2.1.running = false ∧
    Effect.pthread_create ∉ (ws_relay_start unconfigured_relay true).2.2 :=
  ws_relay_start_unconfigured unconfigured_relay true (by decide) (by decide)

/-- C16: on a running relay `ws_relay_start` returns true, makes no call and
leaves the relay as it was. -/
theorem ws_relay_start_running (relay : ws_relay) (thread_ok : Bool)
    (hrun : relay.running = true) :
    ws_relay_start relay thread_ok = (true, relay, []) := by
  unfold ws_relay_start
  simp [hrun]

/-- Witness of C16: the relay of `forward_events`, which is running with
attempt time 105. -/
theorem ws_relay_start_running_witness :
    (run 16 demo_relay forward_events).1.last_reconnect_attempt = 105 ∧
    ws_relay_start (run 16 demo_relay forward_events).1 true =
      (true, (run 16 demo_relay forward_events).1, []) :=
  ⟨by decide, ws_relay_start_running (run 16 demo_relay forward_events).1 true (by decide)⟩

theorem ws_connect_running (relay : ws_relay) (leg : Leg) (a : Option CStr) (v : Option Nat) :
    (ws_connect relay leg a v).2.1.running = relay.running := by
  unfold ws_connect
  cases a with
  | none => simp
  | some a =>
    by_cases hr : (parse_ws_url a).ret = true
    · cases v with
      | none => cases leg <;> simp [hr, ws_relay.setConn]
      | some w => cases leg <;> simp [hr, ws_relay.setConn]
    · cases leg <;> simp [hr, ws_relay.setConn]

/-- A scheduler step on a relay whose remote leg is disconnected and whose
OBS leg has a null handle leaves `running` and the OBS leg as they were, and
leaves the remote leg in a state other than connected. -/
theorem tick_after_close (relay : ws_relay) (now : Int) (vr vo : Option Nat)
    (hr : relay.remote_conn.state = WS_STATE_DISCONNECTED) (ho : relay.obs_conn.wsi = none) :
    (ws_relay_tick relay now vr vo).1.running = relay.running ∧
    (ws_relay_tick relay now vr vo).1.obs_conn = relay.obs_conn ∧
    (ws_relay_tick relay now vr vo).1.remote_conn.state ≠ WS_STATE_CONNECTED := by
  have hne : relay.remote_conn.state ≠ WS_STATE_CONNECTED := by rw [hr]; decide
  have h1 : (tick_remote relay now vr).1.remote_conn.state ≠ WS_STATE_CONNECTED ∧
      (tick_remote relay now vr).1.obs_conn = relay.obs_conn := by
    rcases tick_remote_cases relay now vr with h | ⟨_, _, hst, hobs, _⟩
    · rw [h]; exact ⟨hne, rfl⟩
    · exact ⟨hst, hobs⟩
  have hrun : (tick_remote relay now vr).1.running = relay.running := by
    unfold tick_remote
    split_ifs
    · exact ws_connect_running relay Leg.remote _ vr
    · rfl
    · rfl
  have h2 : tick_obs (tick_remote relay now vr).1 now vo = ((tick_remote relay now vr).1, []) := by
    rcases tick_obs_cases (tick_remote relay now vr).1 now vo with h2 | ⟨hc, _⟩
    · exact h2
    · exact absurd hc h1.1
  have h3 : tick_cascade (tick_remote relay now vr).1 = ((tick_remote relay now vr).1, []) := by
    unfold tick_cascade
    rw [h1.2, ho]
  rw [ws_relay_tick_eq, h2, h3]
  exact ⟨hrun, h1.2, h1.1⟩

/-- Properties of `ws_relay_stop` that hold whatever scheduler step the loop
thread still runs before it ends: on a relay that is not running the call
changes nothing; on a running relay it returns with `running` false, the OBS
leg disconnected with a null handle and the remote leg not connected; when the
loop thread ends without another scheduler step, the remote leg is
disconnected with a null handle too; and a second call changes nothing. -/
theorem ws_relay_stop_guarantees (relay : ws_relay)
    (last : Option (Int × Option Nat × Option Nat)) :
    (relay.running = false → ws_relay_stop relay last = (relay, [])) ∧
    (relay.running = true →
      (ws_relay_stop relay last).1.running = false ∧
      (ws_relay_stop relay last).1.obs_conn.state = WS_STATE_DISCONNECTED ∧
      (ws_relay_stop relay last).1.obs_conn.wsi = none ∧
      (ws_relay_stop relay last).1.remote_conn.state ≠ WS_STATE_CONNECTED) ∧
    (relay.running = true →
      (ws_relay_stop relay none).1.remote_conn.state = WS_STATE_DISCONNECTED ∧
      (ws_relay_stop relay none).1.remote_conn.wsi = none) ∧
    (∀ again : Option (Int × Option Nat × Option Nat),
      ws_relay_stop (ws_relay_stop relay last).1 again = ((ws_relay_stop relay last).1, [])) := by
  have h1 : ∀ (r : ws_relay) (l : Option (Int × Option Nat × Option Nat)),
      r.running = false → ws_relay_stop r l = (r, []) := by
    intro r l h; unfold ws_relay_stop; simp [h]
  have h2 : relay.running = true →
      (ws_relay_stop relay last).1.running = false ∧
      (ws_relay_stop relay last).1.obs_conn.state = WS_STATE_DISCONNECTED ∧
      (ws_relay_stop relay last).1.obs_conn.wsi = none ∧
      (ws_relay_stop relay last).1.remote_conn.state ≠ WS_STATE_CONNECTED := by
    intro hrun
    have hnr : ¬ ((!relay.running) = true) := by simp [hrun]
    unfold ws_relay_stop
    rw [if_neg hnr]
    by_cases hth : relay.thread_started = true
    · simp only [hth, if_true]
      cases last with
      | none =>
        exact ⟨rfl, rfl, rfl, by show WS_STATE_DISCONNECTED ≠ WS_STATE_CONNECTED; decide⟩
      | some it =>
        obtain ⟨now, vr, vo⟩ := it
        have ht := tick_after_close (stop_close_connections relay) now vr vo rfl rfl
        refine ⟨ht.1, ?_, ?_, ht.2.2⟩
        · show (ws_relay_tick (stop_close_connections relay) now vr vo).1.obs_conn.state = _
          rw [ht.2.1]; rfl
        · show (ws_relay_tick (stop_close_connections relay) now vr vo).1.obs_conn.wsi = _
          rw [ht.2.1]; rfl
    · simp only [hth]
      exact ⟨rfl, rfl, rfl, by show WS_STATE_DISCONNECTED ≠ WS_STATE_CONNECTED; decide⟩
  refine ⟨h1 relay last, h2, ?_, ?_⟩
  · intro hrun
    have hnr : ¬ ((!relay.running) = true) := by simp [hrun]
    unfold ws_relay_stop
    rw [if_neg hnr]
    by_cases hth : relay.thread_started = true
    · simp only [hth, if_true]
      exact ⟨rfl, rfl⟩
    · simp only [hth]
      exact ⟨rfl, rfl⟩
  · intro again
    apply h1
    cases hr : relay.running
    · rw [h1 relay last hr]; exact hr
    · exact (h2 hr).1

/-- C17: on a running relay whose loop thread is in an iteration when
`ws_relay_stop` is called, the call does not leave both legs disconnected. The
relay of `forward_events` is running with both legs connected and attempt
time 105; `ws_relay_stop` closes both connections, and the scheduler step of
the iteration in progress, at time 110, then opens the remote connection
again (handle 3). When `ws_relay_stop` returns, `running` is false and the
remote leg is in state `WS_STATE_CONNECTING` with handle 3; a second call
changes nothing. -/
theorem ws_relay_stop_reconnects :
    (run 16 demo_relay forward_events).1.running = true ∧
    (run 16 demo_relay forward_events).1.thread_started = true ∧
    (ws_relay_stop (run 16 demo_relay forward_events).1
      (some (110, some 3, none))).1.running = false ∧
    (ws_relay_stop (run 16 demo_relay forward_events).1
      (some (110, some 3, none))).1.obs_conn.state = WS_STATE_DISCONNECTED ∧
    (ws_relay_stop (run 16 demo_relay forward_events).1
      (some (110, some 3, none))).1.remote_conn.state = WS_STATE_CONNECTING ∧
    (ws_relay_stop (run 16 demo_relay forward_events).1
      (some (110, some 3, none))).1.remote_conn.wsi = some 3 ∧
    Effect.ws_connect_call Leg.remote 110
        (stop_close_connections (run 16 demo_relay forward_events).1) ∈
      (ws_relay_stop (run 16 demo_relay forward_events).1 (some (110, some 3, none))).2 ∧
    (ws_relay_stop (ws_relay_stop (run 16 demo_relay forward_events).1
      (some (110, some 3, none))).1 none).1.remote_conn.state = WS_STATE_CONNECTING := by
  decide

/-! ## Backpressure: claim C19 -/

/-- C19: a payload received on leg A while the other leg is not connected is
dropped: the callback returns 0, the relay is unchanged (queues, states and
handles of both legs) and no call is made, so no writable notification is
requested. -/
theorem receive_dropped_when_not_connected (LWS_PRE : Nat) (relay : ws_relay) (A : Leg)
    (wsi : Nat) (p : List Byte) (wr : Nat → Int)
    (hB : (relay.conn A.other).state ≠ WS_STATE_CONNECTED) :
    protocol_callback LWS_PRE A relay wsi LWS_CALLBACK_CLIENT_RECEIVE p wr = (0, relay, []) := by
  rw [protocol_callback_eq]
  unfold ws_callback
  cases hl : lws_get_opaque_user_data relay.context wsi with
  | none => rfl
  | some leg =>
    cases hw : (relay.conn A.other).wsi with
    | none => simp [hw]
    | some dw => simp [hw, hB]

/-- Witness of C19: the remote leg is connected and the OBS connection is
still being set up when the bytes `hi` arrive from the remote side. -/
theorem receive_dropped_when_not_connected_witness :
    ((run 16 demo_relay (forward_events.take 4)).1.conn Leg.remote.other).state =
      WS_STATE_CONNECTING ∧
    protocol_callback 16 Leg.remote (run 16 demo_relay (forward_events.take 4)).1 1
      LWS_CALLBACK_CLIENT_RECEIVE [104, 105] writes_ok =
        (0, (run 16 demo_relay (forward_events.take 4)).1, []) :=
  ⟨by decide, receive_dropped_when_not_connected 16 (run 16 demo_relay (forward_events.take 4)).1
    Leg.remote 1 [104, 105] writes_ok (by decide)⟩

/-! ## Handles and states: claims C11 and C12 -/

theorem handle_consistent_of_eq (c c' : ws_connection) (hs : c'.state = c.state)
    (hw : c'.wsi = c.wsi) (h : handle_consistent c) : handle_consistent c' := by
  unfold handle_consistent at *
  rw [hs, hw]
  exact h

theorem ws_connect_keeps_consistent (relay : ws_relay) (leg : Leg) (a : Option CStr)
    (v : Option Nat) (h : handles_consistent relay) :
    handles_consistent (ws_connect relay leg a v).2.1 := by
  unfold ws_connect
  cases a with
  | none => exact h
  | some a =>
    obtain ⟨ho, hm⟩ := h
    by_cases hr : (parse_ws_url a).ret = true
    · cases v with
      | none =>
        cases leg
        · exact ⟨by simp [hr, ws_relay.setConn, handle_consistent],
            by simpa [hr, ws_relay.setConn] using hm⟩
        · exact ⟨by simpa [hr, ws_relay.setConn] using ho,
            by simp [hr, ws_relay.setConn, handle_consistent]⟩
      | some w =>
        cases leg
        · exact ⟨by simp [hr, ws_relay.setConn, handle_consistent],
            by simpa [hr, ws_relay.setConn] using hm⟩
        · exact ⟨by simpa [hr, ws_relay.setConn] using ho,
            by simp [hr, ws_relay.setConn, handle_consistent]⟩
    · cases leg
      · exact ⟨by simpa [hr, ws_relay.setConn, ws_relay.conn, handle_consistent] using ho,
          by simpa [hr, ws_relay.setConn] using hm⟩
      · exact ⟨by simpa [hr, ws_relay.setConn] using ho,
          by simpa [hr, ws_relay.setConn, ws_relay.conn, handle_consistent] using hm⟩

theorem tick_keeps_consistent (relay : ws_relay) (now : Int) (vr vo : Option Nat)
    (h : handles_consistent relay) :
    handles_consistent (ws_relay_tick relay now vr vo).1 := by
  have h1 : handles_consistent (tick_remote relay now vr).1 := by
    unfold tick_remote
    split_ifs
    · exact ws_connect_keeps_consistent relay Leg.remote _ vr h
    · exact h
    · exact h
  have h2 : handles_consistent (tick_obs (tick_remote relay now vr).1 now vo).1 := by
    unfold tick_obs
    split_ifs
    · exact ws_connect_keeps_consistent _ Leg.obs _ vo h1
    · exact h1
    · exact h1
  rw [ws_relay_tick_eq]
  show handles_consistent (tick_cascade _).1
  generalize (tick_obs (tick_remote relay now vr).1 now vo).1 = r2 at h2
  unfold tick_cascade
  cases hw : r2.obs_conn.wsi with
  | none => exact h2
  | some w =>
    split_ifs
    · exact ⟨by simp [handle_consistent], h2.2⟩
    · exact h2

theorem callback_keeps_consistent (LWS_PRE : Nat) (dest : Leg) (relay : ws_relay) (wsi : Nat)
    (reason : lws_callback_reasons) (input : List Byte) (wr : Nat → Int)
    (h : handles_consistent relay) :
    handles_consistent (ws_callback LWS_PRE dest relay wsi reason input wr).2.1 := by
  unfold ws_callback
  cases hl : lws_get_opaque_user_data relay.context wsi with
  | none => exact h
  | some leg =>
    obtain ⟨ho, hm⟩ := h
    cases reason with
    | LWS_CALLBACK_CLIENT_ESTABLISHED =>
      cases leg
      · exact ⟨by simp [ws_relay.setConn, ws_relay.conn, handle_consistent], hm⟩
      · exact ⟨ho, by simp [ws_relay.setConn, ws_relay.conn, handle_consistent]⟩
    | LWS_CALLBACK_CLIENT_RECEIVE =>
      cases hw : (relay.conn dest).wsi with
      | none => simpa [hw] using ⟨ho, hm⟩
      | some dw =>
        by_cases hs : (relay.conn dest).state = WS_STATE_CONNECTED
        · cases dest
          · simp only [ws_relay.conn] at hw hs
            exact ⟨by simp [hw, hs, ws_relay.setConn, ws_relay.conn, handle_consistent],
              by simpa [hw, hs, ws_relay.setConn, ws_relay.conn] using hm⟩
          · simp only [ws_relay.conn] at hw hs
            exact ⟨by simpa [hw, hs, ws_relay.setConn, ws_relay.conn] using ho,
              by simp [hw, hs, ws_relay.setConn, ws_relay.conn, handle_consistent]⟩
        · simpa [hw, hs] using ⟨ho, hm⟩
    | LWS_CALLBACK_CLIENT_WRITEABLE =>
      by_cases hb : (relay.conn leg).buffers.isEmpty = true
      · simpa [hb] using ⟨ho, hm⟩
      · cases leg
        · simp only [ws_relay.conn] at hb
          exact ⟨by simpa [hb, ws_relay.setConn, ws_relay.conn, handle_consistent] using ho,
            by simpa [hb, ws_relay.setConn, ws_relay.conn] using hm⟩
        · simp only [ws_relay.conn] at hb
          exact ⟨by simpa [hb, ws_relay.setConn, ws_relay.conn] using ho,
            by simpa [hb, ws_relay.setConn, ws_relay.conn, handle_consistent] using hm⟩
    | LWS_CALLBACK_CLIENT_CONNECTION_ERROR =>
      cases leg
      · exact ⟨by simp [ws_relay.setConn, ws_relay.conn, handle_consistent], hm⟩
      · exact ⟨ho, by simp [ws_relay.setConn, ws_relay.conn, handle_consistent]⟩
    | LWS_CALLBACK_CLIENT_CLOSED =>
      cases leg
      · exact ⟨by simp [ws_relay.setConn, ws_relay.conn, handle_consistent], hm⟩
      · exact ⟨ho, by simp [ws_relay.setConn, ws_relay.conn, handle_consistent]⟩
    | LWS_CALLBACK_CLOSED =>
      cases leg
      · exact ⟨by simp [ws_relay.setConn, ws_relay.conn, handle_consistent], hm⟩
      · exact ⟨ho, by simp [ws_relay.setConn, ws_relay.conn, handle_consistent]⟩
    | other => exact ⟨ho, hm⟩

theorem step_keeps_consistent (LWS_PRE : Nat) (relay : ws_relay) (e : Event)
    (h : handles_consistent relay) : handles_consistent (step LWS_PRE relay e).1 := by
  cases e with
  | start ok =>
    show handles_consistent (ws_relay_start relay ok).2.1
    unfold ws_relay_start
    split_ifs <;> exact h
  | stop last =>
    exact ws_relay_stop_induct handles_consistent relay last h
      ⟨by simp [stop_close_connections, handle_consistent],
        by simp [stop_close_connections, handle_consistent]⟩
      (fun r now vr vo hr => tick_keeps_consistent r now vr vo hr) (fun _ hr => hr)
  | tick now vr vo => exact tick_keeps_consistent relay now vr vo h
  | connect leg a v => exact ws_connect_keeps_consistent relay leg a v h
  | callback_obs wsi reason input wr =>
    exact callback_keeps_consistent LWS_PRE Leg.remote relay wsi reason input wr h
  | callback_remote wsi reason input wr =>
    exact callback_keeps_consistent LWS_PRE Leg.obs relay wsi reason input wr h

theorem run_keeps_consistent (LWS_PRE : Nat) (evs : List Event) :
    ∀ relay : ws_relay, handles_consistent relay →
      handles_consistent (run LWS_PRE relay evs).1 := by
  induction evs with
  | nil => intro relay h; exact h
  | cons e es ih =>
    intro relay h
    rw [run_cons]
    exact ih _ (step_keeps_consistent LWS_PRE relay e h)

theorem create_consistent (config : Option ws_relay_config_t) (mutex_ok context_ok : Bool)
    (relay : ws_relay) (h : ws_relay_create config mutex_ok context_ok = some relay) :
    handles_consistent relay := by
  unfold ws_relay_create at h
  cases config with
  | none => simp at h
  | some cfg =>
    cases mutex_ok <;> cases context_ok <;> simp at h
    subst h
    exact ⟨by simp [ws_connection_init, handle_consistent],
      by simp [ws_connection_init, handle_consistent]⟩

theorem handles_consistent_conn (relay : ws_relay) (h : handles_consistent relay) (leg : Leg) :
    handle_consistent (relay.conn leg) := by
  cases leg
  · exact h.1
  · exact h.2

/-- C11: in every state reached from `ws_relay_create` by start, stop,
scheduler iterations, calls of `ws_connect` and callbacks of the transport, a
leg whose state is `WS_STATE_DISCONNECTED` has a null handle. -/
theorem disconnected_leg_has_no_handle (LWS_PRE : Nat) (config : Option ws_relay_config_t)
    (mutex_ok context_ok : Bool) (relay : ws_relay) (evs : List Event) (leg : Leg)
    (hcreate : ws_relay_create config mutex_ok context_ok = some relay)
    (hdisc : ((run LWS_PRE relay evs).1.conn leg).state = WS_STATE_DISCONNECTED) :
    ((run LWS_PRE relay evs).1.conn leg).wsi = none :=
  (handles_consistent_conn _ (run_keeps_consistent LWS_PRE evs relay
    (create_consistent config mutex_ok context_ok relay hcreate)) leg).1 hdisc

/-- Witness of C11: after `stale_obs_events`, where the relay was stopped
with two open connections, the remote leg is disconnected. -/
theorem disconnected_leg_has_no_handle_witness :
    ((run 16 demo_relay stale_obs_events).1.conn Leg.remote).state = WS_STATE_DISCONNECTED ∧
    ((run 16 demo_relay stale_obs_events).1.conn Leg.remote).wsi = none :=
  ⟨by decide, disconnected_leg_has_no_handle 16 (some demo_config) true true demo_relay
    stale_obs_events Leg.remote (by decide) (by decide)⟩

/-- C12, as the code has it: in every state reached from `ws_relay_create`,
a leg with a handle that is not null is in state `WS_STATE_CONNECTING`,
`WS_STATE_CONNECTED` or `WS_STATE_ERROR` (a disconnected leg has a null
handle), and a leg in state `WS_STATE_CONNECTING` has a handle that is not
null. -/
theorem handle_only_when_not_disconnected (LWS_PRE : Nat) (config : Option ws_relay_config_t)
    (mutex_ok context_ok : Bool) (relay : ws_relay) (evs : List Event) (leg : Leg)
    (hcreate : ws_relay_create config mutex_ok context_ok = some relay) :
    (((run LWS_PRE relay evs).1.conn leg).wsi ≠ none →
      ((run LWS_PRE relay evs).1.conn leg).state = WS_STATE_CONNECTING ∨
      ((run LWS_PRE relay evs).1.conn leg).state = WS_STATE_CONNECTED ∨
      ((run LWS_PRE relay evs).1.conn leg).state = WS_STATE_ERROR) ∧
    (((run LWS_PRE relay evs).1.conn leg).state = WS_STATE_CONNECTING →
      ((run LWS_PRE relay evs).1.conn leg).wsi ≠ none) := by
  have h := handles_consistent_conn _ (run_keeps_consistent LWS_PRE evs relay
    (create_consistent config mutex_ok context_ok relay hcreate)) leg
  refine ⟨?_, h.2⟩
  intro hw
  cases hs : ((run LWS_PRE relay evs).1.conn leg).state with
  | WS_STATE_DISCONNECTED => exact absurd (h.1 hs) hw
  | WS_STATE_CONNECTING => exact Or.inl rfl
  | WS_STATE_CONNECTED => exact Or.inr (Or.inl rfl)
  | WS_STATE_ERROR => exact Or.inr (Or.inr rfl)

/-- Witness of C12 as amended: the remote leg after the first two events of
`forward_events`, being set up with handle 1. -/
theorem handle_only_when_not_disconnected_witness :
    ((run 16 demo_relay (forward_events.take 2)).1.conn Leg.remote).wsi = some 1 ∧
    ((((run 16 demo_relay (forward_events.take 2)).1.conn Leg.remote).wsi ≠ none →
      ((run 16 demo_relay (forward_events.take 2)).1.conn Leg.remote).state =
        WS_STATE_CONNECTING ∨
      ((run 16 demo_relay (forward_events.take 2)).1.conn Leg.remote).state =
        WS_STATE_CONNECTED ∨
      ((run 16 demo_relay (forward_events.take 2)).1.conn Leg.remote).state =
        WS_STATE_ERROR) ∧
    (((run 16 demo_relay (forward_events.take 2)).1.conn Leg.remote).state =
        WS_STATE_CONNECTING →
      ((run 16 demo_relay (forward_events.take 2)).1.conn Leg.remote).wsi ≠ none)) :=
  ⟨by decide, handle_only_when_not_disconnected 16 (some demo_config) true true demo_relay
    (forward_events.take 2) Leg.remote (by decide)⟩

/-- Counterexample to C12 as stated: after the scheduler's first call of
`ws_connect` the remote leg is in state `WS_STATE_CONNECTING` with handle 1;
and after a connection-error callback for that handle it is in state
`WS_STATE_ERROR`, still with handle 1. -/
theorem connecting_leg_has_handle :
    ws_relay_create (some demo_config) true true = some demo_relay ∧
    (run 16 demo_relay [Event.start true, Event.tick 100 (some 1) none]).1.remote_conn.state =
      WS_STATE_CONNECTING ∧
    (run 16 demo_relay [Event.start true, Event.tick 100 (some 1) none]).1.remote_conn.wsi =
      some 1 ∧
    (run 16 demo_relay [Event.start true, Event.tick 100 (some 1) none,
      Event.callback_remote 1 LWS_CALLBACK_CLIENT_CONNECTION_ERROR [] writes_ok]).1.remote_conn.state =
        WS_STATE_ERROR ∧
    (run 16 demo_relay [Event.start true, Event.tick 100 (some 1) none,
      Event.callback_remote 1 LWS_CALLBACK_CLIENT_CONNECTION_ERROR [] writes_ok]).1.remote_conn.wsi =
        some 1 := by
  decide

/-! ## Connect failures: claim C14 -/

/-- C14, as the code has it: when `ws_connect` gets no handle from the
transport it returns false and leaves the leg in state `WS_STATE_ERROR`, and
when the connection-error callback runs for a leg it leaves the leg in state
`WS_STATE_ERROR`; in both cases the queue of the leg is as it was before, not
emptied. -/
theorem connect_failure_keeps_queue (LWS_PRE : Nat) (relay : ws_relay) (leg : Leg) (a : CStr)
    (wsi : Nat) (input : List Byte) (wr : Nat → Int)
    (hacc : (parse_ws_url a).ret = true)
    (hleg : lws_get_opaque_user_data relay.context wsi = some leg) :
    ((ws_connect relay leg (some a) none).1 = false ∧
      ((ws_connect relay leg (some a) none).2.1.conn leg).state = WS_STATE_ERROR ∧
      ((ws_connect relay leg (some a) none).2.1.conn leg).wsi = none ∧
      ((ws_connect relay leg (some a) none).2.1.conn leg).buffers = (relay.conn leg).buffers) ∧
    (((protocol_callback LWS_PRE leg relay wsi LWS_CALLBACK_CLIENT_CONNECTION_ERROR input
        wr).2.1.conn leg).state = WS_STATE_ERROR ∧
      ((protocol_callback LWS_PRE leg relay wsi LWS_CALLBACK_CLIENT_CONNECTION_ERROR input
        wr).2.1.conn leg).buffers = (relay.conn leg).buffers) := by
  constructor
  · unfold ws_connect
    simp [hacc]
  · rw [protocol_callback_eq]
    unfold ws_callback
    rw [hleg]
    simp

/-- Witness of C14 as amended: a connect request that the transport refuses
and a connection error, both on the remote leg of a relay whose remote queue
holds the frame `hi`. -/
theorem connect_failure_keeps_queue_witness :
    ((run 16 demo_relay closed_with_queue_events).1.conn Leg.remote).buffers =
      [make_frame 16 [104, 105]] ∧
    (((ws_connect (run 16 demo_relay closed_with_queue_events).1 Leg.remote
        (some "wss://relay.example/ws".toList) none).1 = false ∧
      ((ws_connect (run 16 demo_relay closed_with_queue_events).1 Leg.remote
        (some "wss://relay.example/ws".toList) none).2.1.conn Leg.remote).state =
          WS_STATE_ERROR ∧
      ((ws_connect (run 16 demo_relay closed_with_queue_events).1 Leg.remote
        (some "wss://relay.example/ws".toList) none).2.1.conn Leg.remote).wsi = none ∧
      ((ws_connect (run 16 demo_relay closed_with_queue_events).1 Leg.remote
        (some "wss://relay.example/ws".toList) none).2.1.conn Leg.remote).buffers =
          ((run 16 demo_relay closed_with_queue_events).1.conn Leg.remote).buffers) ∧
    (((protocol_callback 16 Leg.remote (run 16 demo_relay closed_with_queue_events).1 1
        LWS_CALLBACK_CLIENT_CONNECTION_ERROR [] writes_ok).2.1.conn Leg.remote).state =
          WS_STATE_ERROR ∧
      ((protocol_callback 16 Leg.remote (run 16 demo_relay closed_with_queue_events).1 1
        LWS_CALLBACK_CLIENT_CONNECTION_ERROR [] writes_ok).2.1.conn Leg.remote).buffers =
          ((run 16 demo_relay closed_with_queue_events).1.conn Leg.remote).buffers)) :=
  ⟨by decide, connect_failure_keeps_queue 16 (run 16 demo_relay closed_with_queue_events).1
    Leg.remote "wss://relay.example/ws".toList 1 [] writes_ok (by decide) (by decide)⟩

/-- Counterexample to C14 as stated: the remote connection closes with the
frame `hi` in its queue. When the scheduler's next connect request gets no
handle, the remote leg is in state `WS_STATE_ERROR` with the frame still
queued; and when the request gets handle 3 and the transport then reports a
connection error, the same holds. -/
theorem connect_failure_queue_not_empty :
    (run 16 demo_relay closed_with_queue_events).1.remote_conn.buffers =
      [make_frame 16 [104, 105]] ∧
    (run 16 demo_relay (closed_with_queue_events ++
      [Event.tick 110 none none])).1.remote_conn.state = WS_STATE_ERROR ∧
    (run 16 demo_relay (closed_with_queue_events ++
      [Event.tick 110 none none])).1.remote_conn.buffers = [make_frame 16 [104, 105]] ∧
    (run 16 demo_relay (closed_with_queue_events ++
      [Event.tick 110 none none])).1.remote_conn.buffers ≠ [] ∧
    (run 16 demo_relay (closed_with_queue_events ++
      [Event.tick 110 (some 3) none,
       Event.callback_remote 3 LWS_CALLBACK_CLIENT_CONNECTION_ERROR [] writes_ok])).1.remote_conn.state =
        WS_STATE_ERROR ∧
    (run 16 demo_relay (closed_with_queue_events ++
      [Event.tick 110 (some 3) none,
       Event.callback_remote 3 LWS_CALLBACK_CLIENT_CONNECTION_ERROR [] writes_ok])).1.remote_conn.buffers ≠
        [] := by
  decide

/-! ## The shared attempt time: claim C20 -/

/-- The interval test of the scheduler in terms of the difference the machine
computes: with the remote leg disconnected or in error, a remote address
configured and `time_t_sub now last` at least the interval, the scheduler
calls `ws_connect` on the remote leg and sets the attempt time to `now`; with
`time_t_sub now last` below the interval it makes no call of `ws_connect`. -/
theorem tick_interval (relay : ws_relay) (now : Int) (vr vo : Option Nat) :
    ((relay.remote_conn.state = WS_STATE_DISCONNECTED ∨
        relay.remote_conn.state = WS_STATE_ERROR) →
      (∃ a, relay.config.remote_ws_address = some a ∧ a ≠ []) →
      time_t_sub now relay.last_reconnect_attempt ≥ relay.config.reconnect_interval →
      Effect.ws_connect_call Leg.remote now relay ∈ (ws_relay_tick relay now vr vo).2 ∧
      (ws_relay_tick relay now vr vo).1.last_reconnect_attempt = now) ∧
    (time_t_sub now relay.last_reconnect_attempt < relay.config.reconnect_interval →
      ∀ (leg : Leg) (t : Int) (s : ws_relay),
        Effect.ws_connect_call leg t s ∉ (ws_relay_tick relay now vr vo).2) := by
  constructor
  · rintro hst ⟨a, ha, hne⟩ hel
    have hcond : relay.remote_conn.state ≠ WS_STATE_CONNECTED ∧
        relay.remote_conn.state ≠ WS_STATE_CONNECTING ∧ interval_elapsed relay now = true := by
      refine ⟨?_, ?_, by simpa [interval_elapsed] using hel⟩
      · rcases hst with h | h <;> rw [h] <;> decide
      · rcases hst with h | h <;> rw [h] <;> decide
    have haddr : address_configured relay.config.remote_ws_address = true := by
      rw [ha]
      cases a with
      | nil => exact absurd rfl hne
      | cons x xs => simp [address_configured]
    rcases tick_remote_cases relay now vr with h1 | ⟨_, _, hst1, _, _, hl1, rest1, hlog1, _⟩
    · exfalso
      unfold tick_remote at h1
      rw [if_pos hcond, if_pos haddr] at h1
      have := congrArg Prod.snd h1
      simp at this
    · have h2 : tick_obs (tick_remote relay now vr).1 now vo =
          ((tick_remote relay now vr).1, []) := by
        rcases tick_obs_cases (tick_remote relay now vr).1 now vo with h2 | ⟨hc, _⟩
        · exact h2
        · exact absurd hc hst1
      obtain ⟨_, _, hl3, _⟩ := tick_cascade_frame (tick_remote relay now vr).1
      rw [ws_relay_tick_eq, h2]
      refine ⟨?_, hl3.trans hl1⟩
      simp [hlog1]
  · intro hlt leg t s hmem
    obtain ⟨_, hc | ⟨l, rest, _, _, _, hel, _⟩⟩ := ws_relay_tick_cases relay now vr vo
    · exact hc.1 _ hmem leg t s rfl
    · omega

/-- The interval test at a difference that leaves the range of `time_t`: with
the attempt time at the largest 64-bit value and the clock at -2, the
difference the machine computes is the largest 64-bit value, the test passes,
and the scheduler calls `ws_connect` on the OBS leg. -/
theorem tick_interval_out_of_range :
    time_t_sub (-2) 9223372036854775807 = 9223372036854775807 ∧
    Effect.ws_connect_call Leg.obs (-2)
        { (run 16 demo_relay (forward_events.take 3)).1 with
          last_reconnect_attempt := 9223372036854775807 } ∈
      (ws_relay_tick
        { (run 16 demo_relay (forward_events.take 3)).1 with
          last_reconnect_attempt := 9223372036854775807 } (-2) none (some 2)).2 := by
  decide

/-- C20: for a clock reading `now` and an attempt time whose difference is in
the range of `time_t` (the subtraction of the source does not overflow): in an
iteration at time `now` where the remote leg is disconnected or in error, a
remote address is configured and the interval has elapsed, the scheduler calls
`ws_connect` on the remote leg and sets the attempt time to `now`, whatever
the transport answers; and in an iteration at a time `now` less than one
interval after the attempt time the scheduler makes no call of `ws_connect` on
the OBS leg (nor on the remote leg), whatever the state of the remote leg
is. -/
theorem shared_reconnect_timestamp (relay : ws_relay) (now : Int) (vr vo : Option Nat)
    (hlo : -9223372036854775808 ≤ now - relay.last_reconnect_attempt)
    (hhi : now - relay.last_reconnect_attempt < 9223372036854775808) :
    ((relay.remote_conn.state = WS_STATE_DISCONNECTED ∨
        relay.remote_conn.state = WS_STATE_ERROR) →
      (∃ a, relay.config.remote_ws_address = some a ∧ a ≠ []) →
      now - relay.last_reconnect_attempt ≥ relay.config.reconnect_interval →
      Effect.ws_connect_call Leg.remote now relay ∈ (ws_relay_tick relay now vr vo).2 ∧
      (ws_relay_tick relay now vr vo).1.last_reconnect_attempt = now) ∧
    (now - relay.last_reconnect_attempt < relay.config.reconnect_interval →
      ∀ (leg : Leg) (t : Int) (s : ws_relay),
        Effect.ws_connect_call leg t s ∉ (ws_relay_tick relay now vr vo).2) := by
  have hg := tick_interval relay now vr vo
  rw [time_t_sub_eq now relay.last_reconnect_attempt hlo hhi] at hg
  exact hg

/-- Witness of C20: a started relay asks for the remote connection at time
100 and records the attempt whether the transport refuses the request or
returns handle 1; and at time 102, with the remote leg connected and the
attempt time 100, no call of `ws_connect` is made. -/
theorem shared_reconnect_timestamp_witness :
    (Effect.ws_connect_call Leg.remote 100 (run 16 demo_relay [Event.start true]).1 ∈
        (ws_relay_tick (run 16 demo_relay [Event.start true]).1 100 none none).2 ∧
      (ws_relay_tick (run 16 demo_relay [Event.start true]).1 100 none
        none).1.last_reconnect_attempt = 100) ∧
    (Effect.ws_connect_call Leg.remote 100 (run 16 demo_relay [Event.start true]).1 ∈
        (ws_relay_tick (run 16 demo_relay [Event.start true]).1 100 (some 1) none).2 ∧
      (ws_relay_tick (run 16 demo_relay [Event.start true]).1 100 (some 1)
        none).1.last_reconnect_attempt = 100) ∧
    (run 16 demo_relay (forward_events.take 3)).1.remote_conn.state = WS_STATE_CONNECTED ∧
    (∀ (leg : Leg) (t : Int) (s : ws_relay), Effect.ws_connect_call leg t s ∉
      (ws_relay_tick (run 16 demo_relay (forward_events.take 3)).1 102 none (some 2)).2) :=
  ⟨(shared_reconnect_timestamp (run 16 demo_relay [Event.start true]).1 100 none none
      (by decide) (by decide)).1 (by decide) ⟨_, rfl, by decide⟩ (by decide),
    (shared_reconnect_timestamp (run 16 demo_relay [Event.start true]).1 100 (some 1) none
      (by decide) (by decide)).1 (by decide) ⟨_, rfl, by decide⟩ (by decide),
    by decide,
    (shared_reconnect_timestamp (run 16 demo_relay (forward_events.take 3)).1 102 none
      (some 2) (by decide) (by decide)).2 (by decide)⟩

/-! ## Flushing in arrival order: claim C18 -/

theorem flush_buffers_ok (LWS_PRE wsi : Nat) (wr : Nat → Int) (bufs : List (List Byte)) :
    ∀ k : Nat, (∀ i, i < bufs.length → ¬ wr (k + i) < 0) →
      flush_buffers LWS_PRE wsi wr k bufs =
        (true, bufs.map fun b => Effect.lws_write wsi (frame_payload LWS_PRE b)) := by
  induction bufs with
  | nil => intro k _; rfl
  | cons b bs ih =>
    intro k h
    have h0 : ¬ wr k < 0 := by simpa using h 0 (by simp)
    have hrest : ∀ i, i < bs.length → ¬ wr (k + 1 + i) < 0 := by
      intro i hi
      have e : k + 1 + i = k + (i + 1) := by omega
      rw [e]
      exact h (i + 1) (by simpa using hi)
    unfold flush_buffers
    simp [h0, ih (k + 1) hrest]

theorem ws_connect_buffers (relay : ws_relay) (leg : Leg) (a : Option CStr) (v : Option Nat)
    (B : Leg) :
    ((ws_connect relay leg a v).2.1.conn B).buffers = (relay.conn B).buffers := by
  unfold ws_connect
  cases a with
  | none => rfl
  | some a =>
    by_cases hr : (parse_ws_url a).ret = true
    · cases v with
      | none => cases leg <;> cases B <;> simp [hr, ws_relay.setConn, ws_relay.conn]
      | some w => cases leg <;> cases B <;> simp [hr, ws_relay.setConn, ws_relay.conn]
    · cases leg <;> cases B <;> simp [hr, ws_relay.setConn, ws_relay.conn]

theorem tick_buffers (relay : ws_relay) (now : Int) (vr vo : Option Nat) (B : Leg) :
    ((ws_relay_tick relay now vr vo).1.conn B).buffers = (relay.conn B).buffers := by
  have h1 : ((tick_remote relay now vr).1.conn B).buffers = (relay.conn B).buffers := by
    unfold tick_remote
    split_ifs
    · have := ws_connect_buffers relay Leg.remote relay.config.remote_ws_address vr B
      cases B <;> simpa [ws_relay.conn] using this
    · rfl
    · rfl
  have h2 : ∀ r : ws_relay, ((tick_obs r now vo).1.conn B).buffers = (r.conn B).buffers := by
    intro r
    unfold tick_obs
    split_ifs
    · have := ws_connect_buffers r Leg.obs r.config.local_obs_address vo B
      cases B <;> simpa [ws_relay.conn] using this
    · rfl
    · rfl
  have h3 : ∀ r : ws_relay, ((tick_cascade r).1.conn B).buffers = (r.conn B).buffers := by
    intro r
    unfold tick_cascade
    cases hw : r.obs_conn.wsi with
    | none => rfl
    | some w =>
      split_ifs
      · cases B <;> rfl
      · rfl
  rw [ws_relay_tick_eq]
  show ((tick_cascade _).1.conn B).buffers = _
  rw [h3, h2, h1]

/-- What a callback does to the queue of leg `B`, unless it is the writable
case for a handle attached to `B`: the receive case appends one frame when it
forwards to `B`, a connection is attached to the handle and `B` is connected
with a handle; nothing else changes the queue. -/
theorem ws_callback_buffers (LWS_PRE : Nat) (dest : Leg) (relay : ws_relay) (wsi : Nat)
    (reason : lws_callback_reasons) (input : List Byte) (wr : Nat → Int) (B : Leg)
    (hnw : ¬ (reason = LWS_CALLBACK_CLIENT_WRITEABLE ∧
      lws_get_opaque_user_data relay.context wsi = some B)) :
    ((ws_callback LWS_PRE dest relay wsi reason input wr).2.1.conn B).buffers =
      (relay.conn B).buffers ++
        (if reason = LWS_CALLBACK_CLIENT_RECEIVE ∧ B = dest ∧
            (lws_get_opaque_user_data relay.context wsi).isSome = true ∧
            (relay.conn B).state = WS_STATE_CONNECTED ∧ (relay.conn B).wsi.isSome = true
          then [make_frame LWS_PRE input] else []) := by
  unfold ws_callback
  cases hl : lws_get_opaque_user_data relay.context wsi with
  | none => simp
  | some leg =>
    cases reason with
    | LWS_CALLBACK_CLIENT_RECEIVE =>
      cases hw : (relay.conn dest).wsi with
      | none =>
        by_cases hB : B = dest
        · subst hB; simp [hw]
        · simp [hw, hB]
      | some dw =>
        by_cases hs : (relay.conn dest).state = WS_STATE_CONNECTED
        · by_cases hB : B = dest
          · subst hB; simp [hw, hs]
          · cases B <;> cases dest <;> simp_all [ws_relay.setConn, ws_relay.conn]
        · by_cases hB : B = dest
          · subst hB; simp [hw, hs]
          · simp [hw, hs, hB]
    | LWS_CALLBACK_CLIENT_WRITEABLE =>
      have hne : leg ≠ B := fun e => hnw ⟨rfl, by rw [hl, e]⟩
      by_cases hb : (relay.conn leg).buffers.isEmpty = true
      · simp [hb]
      · cases leg <;> cases B <;> simp_all [ws_relay.setConn, ws_relay.conn]
    | LWS_CALLBACK_CLIENT_ESTABLISHED =>
      cases leg <;> cases B <;> simp [ws_relay.setConn, ws_relay.conn]
    | LWS_CALLBACK_CLIENT_CONNECTION_ERROR =>
      cases leg <;> cases B <;> simp [ws_relay.setConn, ws_relay.conn]
    | LWS_CALLBACK_CLIENT_CLOSED =>
      cases leg <;> cases B <;> simp [ws_relay.setConn, ws_relay.conn]
    | LWS_CALLBACK_CLOSED =>
      cases leg <;> cases B <;> simp [ws_relay.setConn, ws_relay.conn]
    | other => simp

/-- What one event does to the queue of leg `B`, unless it is a writable
callback for `B`: it appends the frame of the payload it forwards to `B`, if
any. -/
theorem step_buffers (LWS_PRE : Nat) (relay : ws_relay) (e : Event) (B : Leg)
    (hnw : is_writeable_on B relay e = false) :
    ((step LWS_PRE relay e).1.conn B).buffers =
      (relay.conn B).buffers ++ (forwarded_payload B relay e).toList.map (make_frame LWS_PRE) := by
  cases e with
  | start ok =>
    have : ((ws_relay_start relay ok).2.1.conn B).buffers = (relay.conn B).buffers := by
      unfold ws_relay_start
      split_ifs <;> cases B <;> rfl
    simpa [step, forwarded_payload] using this
  | stop last =>
    have : ((ws_relay_stop relay last).1.conn B).buffers = (relay.conn B).buffers :=
      ws_relay_stop_induct (fun r => (r.conn B).buffers = (relay.conn B).buffers) relay last rfl
        (by cases B <;> rfl) (fun r now vr vo hr => (tick_buffers r now vr vo B).trans hr)
        (fun r hr => by cases B <;> exact hr)
    simpa [step, forwarded_payload] using this
  | tick now vr vo => simpa [step, forwarded_payload] using tick_buffers relay now vr vo B
  | connect leg a v => simpa [step, forwarded_payload] using ws_connect_buffers relay leg a v B
  | callback_obs wsi reason input wr =>
    have hnw' : ¬ (reason = LWS_CALLBACK_CLIENT_WRITEABLE ∧
        lws_get_opaque_user_data relay.context wsi = some B) := by
      rintro ⟨rfl, h⟩
      simp [is_writeable_on, h] at hnw
    have := ws_callback_buffers LWS_PRE Leg.remote relay wsi reason input wr B hnw'
    simp only [step, ws_callback_obs]
    rw [this]
    cases reason <;> simp [forwarded_payload]
    split_ifs <;> simp
  | callback_remote wsi reason input wr =>
    have hnw' : ¬ (reason = LWS_CALLBACK_CLIENT_WRITEABLE ∧
        lws_get_opaque_user_data relay.context wsi = some B) := by
      rintro ⟨rfl, h⟩
      simp [is_writeable_on, h] at hnw
    have := ws_callback_buffers LWS_PRE Leg.obs relay wsi reason input wr B hnw'
    simp only [step, ws_callback_remote]
    rw [this]
    cases reason <;> simp [forwarded_payload]
    split_ifs <;> simp

/-- The queue of leg `B` after a run without a writable callback for `B`:
the queue before, then the frames of the payloads forwarded to `B`, in
order. -/
theorem run_buffers (LWS_PRE : Nat) (B : Leg) (evs : List Event) :
    ∀ relay : ws_relay, no_writeable_on LWS_PRE B relay evs = true →
      ((run LWS_PRE relay evs).1.conn B).buffers =
        (relay.conn B).buffers ++ (forwarded LWS_PRE B relay evs).map (make_frame LWS_PRE) := by
  induction evs with
  | nil => intro relay _; simp [run, forwarded]
  | cons e es ih =>
    intro relay h
    simp only [no_writeable_on, Bool.and_eq_true, Bool.not_eq_true'] at h
    rw [run_cons]
    show ((run LWS_PRE (step LWS_PRE relay e).1 es).1.conn B).buffers = _
    rw [ih _ h.2, step_buffers LWS_PRE relay e B h.1]
    simp [forwarded, List.append_assoc]

/-- C18, as the code has it: when the writable callback of leg B runs with a
queue `[f1, ..., fn]` that is not empty and every write succeeds, it returns
0, makes exactly the writes of the payloads of `f1`, ..., `fn` in that order
on the handle of the callback, and leaves the queue empty. Hence, after a run
that starts with B's queue empty and has no writable callback for B, the
payloads written are exactly the payloads forwarded to B during the run (those
received on the other leg while B was connected with a handle), in the order
received. -/
theorem fifo_flush (LWS_PRE : Nat) (relay : ws_relay) (B : Leg) (wsi : Nat)
    (input : List Byte) (wr : Nat → Int)
    (hleg : lws_get_opaque_user_data relay.context wsi = some B)
    (hne : (relay.conn B).buffers ≠ [])
    (hok : ∀ i, i < (relay.conn B).buffers.length → 0 ≤ wr i) :
    (protocol_callback LWS_PRE B relay wsi LWS_CALLBACK_CLIENT_WRITEABLE input wr).1 = 0 ∧
    (protocol_callback LWS_PRE B relay wsi LWS_CALLBACK_CLIENT_WRITEABLE input wr).2.2 =
      (relay.conn B).buffers.map (fun f => Effect.lws_write wsi (frame_payload LWS_PRE f)) ∧
    ((protocol_callback LWS_PRE B relay wsi LWS_CALLBACK_CLIENT_WRITEABLE input wr).2.1.conn
      B).buffers = [] ∧
    ∀ (before : ws_relay) (evs : List Event),
      (before.conn B).buffers = [] → no_writeable_on LWS_PRE B before evs = true →
      relay = (run LWS_PRE before evs).1 →
      (protocol_callback LWS_PRE B relay wsi LWS_CALLBACK_CLIENT_WRITEABLE input wr).2.2 =
        (forwarded LWS_PRE B before evs).map (fun p => Effect.lws_write wsi p) := by
  have hflush := flush_buffers_ok LWS_PRE wsi wr (relay.conn B).buffers 0
    (fun i hi => by simpa using hok i hi)
  have hemp : (relay.conn B).buffers.isEmpty = false := by
    cases hb : (relay.conn B).buffers with
    | nil => exact absurd hb hne
    | cons x xs => rfl
  have hlog : (protocol_callback LWS_PRE B relay wsi LWS_CALLBACK_CLIENT_WRITEABLE input
      wr).2.2 = (relay.conn B).buffers.map
        (fun f => Effect.lws_write wsi (frame_payload LWS_PRE f)) := by
    rw [protocol_callback_eq]
    unfold ws_callback
    rw [hleg]
    simp [hemp, hflush]
  refine ⟨?_, hlog, ?_, ?_⟩
  · rw [protocol_callback_eq]
    unfold ws_callback
    rw [hleg]
    simp [hemp, hflush]
  · rw [protocol_callback_eq]
    exact writeable_empties LWS_PRE _ _ relay wsi input wr hleg
  · intro before evs hstart hnw hrun
    rw [hlog, hrun, run_buffers LWS_PRE B evs before hnw, hstart]
    simp [List.map_map, Function.comp_def, frame_payload_make_frame]

/-- Witness of C18 as amended: after `flushed_events` and then
`early_receive_events` the queue of the OBS leg holds the frame `yo`, and its
writable callback writes `yo`. -/
theorem fifo_flush_witness :
    forwarded 16 Leg.obs (run 16 demo_relay flushed_events).1 early_receive_events =
      [[121, 111]] ∧
    (protocol_callback 16 Leg.obs
      (run 16 (run 16 demo_relay flushed_events).1 early_receive_events).1 3
      LWS_CALLBACK_CLIENT_WRITEABLE [] writes_ok).1 = 0 ∧
    ((protocol_callback 16 Leg.obs
      (run 16 (run 16 demo_relay flushed_events).1 early_receive_events).1 3
      LWS_CALLBACK_CLIENT_WRITEABLE [] writes_ok).2.1.conn Leg.obs).buffers = [] ∧
    (protocol_callback 16 Leg.obs
      (run 16 (run 16 demo_relay flushed_events).1 early_receive_events).1 3
      LWS_CALLBACK_CLIENT_WRITEABLE [] writes_ok).2.2 =
        (forwarded 16 Leg.obs (run 16 demo_relay flushed_events).1 early_receive_events).map
          (fun p => Effect.lws_write 3 p) :=
  ⟨by decide,
    (fifo_flush 16 (run 16 (run 16 demo_relay flushed_events).1 early_receive_events).1
      Leg.obs 3 [] writes_ok (by decide) (by decide) (by decide)).1,
    (fifo_flush 16 (run 16 (run 16 demo_relay flushed_events).1 early_receive_events).1
      Leg.obs 3 [] writes_ok (by decide) (by decide) (by decide)).2.2.1,
    (fifo_flush 16 (run 16 (run 16 demo_relay flushed_events).1 early_receive_events).1
      Leg.obs 3 [] writes_ok (by decide) (by decide) (by decide)).2.2.2
      (run 16 demo_relay flushed_events).1 early_receive_events (by decide) (by decide) rfl⟩

/-- Counterexample to C18 as stated: in `flushed_events` the writable callback
of the OBS leg writes the byte `a` and empties the queue. In
`early_receive_events`, which has no writable callback for the OBS leg, the
payloads `hi` and `yo` are then received on the remote leg, in that order. The
next writable callback of the OBS leg writes `yo` only, because `hi` arrived
while the OBS connection was still being set up. -/
theorem flush_misses_early_payload :
    Effect.lws_write 2 [97] ∈ (run 16 demo_relay flushed_events).2 ∧
    ((run 16 demo_relay flushed_events).1.conn Leg.obs).buffers = [] ∧
    no_writeable_on 16 Leg.obs (run 16 demo_relay flushed_events).1 early_receive_events =
      true ∧
    (ws_callback_obs 16 (run 16 (run 16 demo_relay flushed_events).1 early_receive_events).1 3
      LWS_CALLBACK_CLIENT_WRITEABLE [] writes_ok).2.2 = [Effect.lws_write 3 [121, 111]] ∧
    (ws_callback_obs 16 (run 16 (run 16 demo_relay flushed_events).1 early_receive_events).1 3
      LWS_CALLBACK_CLIENT_WRITEABLE [] writes_ok).2.2 ≠
        [Effect.lws_write 3 [104, 105], Effect.lws_write 3 [121, 111]] := by
  decide

/-! ## Addresses of a created relay: claim C21 -/

theorem step_config (LWS_PRE : Nat) (relay : ws_relay) (e : Event) :
    (step LWS_PRE relay e).1.config = relay.config := by
  cases e with
  | start ok =>
    show (ws_relay_start relay ok).2.1.config = relay.config
    unfold ws_relay_start
    split_ifs <;> rfl
  | stop last =>
    exact ws_relay_stop_induct (fun r => r.config = relay.config) relay last rfl rfl
      (fun r now vr vo hr => (ws_relay_tick_cases r now vr vo).1.trans hr) (fun _ hr => hr)
  | tick now vr vo => exact (ws_relay_tick_cases relay now vr vo).1
  | connect leg a v => exact (ws_connect_config relay leg a v).1
  | callback_obs wsi reason input wr =>
    exact (ws_callback_frame LWS_PRE Leg.remote relay wsi reason input wr).1
  | callback_remote wsi reason input wr =>
    exact (ws_callback_frame LWS_PRE Leg.obs relay wsi reason input wr).1

theorem run_config (LWS_PRE : Nat) (evs : List Event) :
    ∀ relay : ws_relay, (run LWS_PRE relay evs).1.config = relay.config := by
  induction evs with
  | nil => intro relay; rfl
  | cons e es ih =>
    intro relay
    rw [run_cons]
    show (run LWS_PRE (step LWS_PRE relay e).1 es).1.config = relay.config
    rw [ih, step_config]

/-- The configuration `ws_relay_create` stores in the relay it returns. -/
theorem ws_relay_create_config (cfg : ws_relay_config_t) (mutex_ok context_ok : Bool)
    (relay : ws_relay) (h : ws_relay_create (some cfg) mutex_ok context_ok = some relay) :
    relay.config.local_obs_address =
      (if nonempty_str cfg.local_obs_address then cfg.local_obs_address
        else some DEFAULT_LOCAL_OBS_ADDRESS) ∧
    relay.config.remote_ws_address =
      (if nonempty_str cfg.remote_ws_address then cfg.remote_ws_address
        else some DEFAULT_REMOTE_WS_ADDRESS) := by
  unfold ws_relay_create at h
  cases mutex_ok <;> cases context_ok <;> simp at h
  subst h
  by_cases hl : nonempty_str cfg.local_obs_address = true <;>
    by_cases hr : nonempty_str cfg.remote_ws_address = true <;>
    simp [hl, hr, ws_relay_config_init]

theorem nonempty_str_iff (s : Option CStr) :
    nonempty_str s = true ↔ ∃ a, s = some a ∧ a ≠ [] := by
  cases s with
  | none => simp [nonempty_str]
  | some a => cases a <;> simp [nonempty_str]

/-- C21: the relay `ws_relay_create` returns has the local address of the
configuration when that is not empty and `ws://localhost:4455` when it is null
or empty, and the remote address of the configuration when that is not empty
and the empty string otherwise. Its local address is therefore never empty,
and in any state reached from it `ws_relay_start` returns false without
creating the thread only when the remote address is the empty string. -/
theorem ws_relay_create_addresses (cfg : ws_relay_config_t) (mutex_ok context_ok : Bool)
    (relay : ws_relay) (hcreate : ws_relay_create (some cfg) mutex_ok context_ok = some relay) :
    (∀ a, cfg.local_obs_address = some a → a ≠ [] → relay.config.local_obs_address = some a) ∧
    (cfg.local_obs_address = none ∨ cfg.local_obs_address = some [] →
      relay.config.local_obs_address = some "ws://localhost:4455".toList) ∧
    (∀ a, cfg.remote_ws_address = some a → a ≠ [] → relay.config.remote_ws_address = some a) ∧
    (cfg.remote_ws_address = none ∨ cfg.remote_ws_address = some [] →
      relay.config.remote_ws_address = some []) ∧
    (∃ a, relay.config.local_obs_address = some a ∧ a ≠ []) ∧
    (∀ (LWS_PRE : Nat) (evs : List Event) (thread_ok : Bool),
      (ws_relay_start (run LWS_PRE relay evs).1 thread_ok).1 = false →
      Effect.pthread_create ∉ (ws_relay_start (run LWS_PRE relay evs).1 thread_ok).2.2 →
      (run LWS_PRE relay evs).1.config.remote_ws_address = some []) := by
  obtain ⟨hl, hr⟩ := ws_relay_create_config cfg mutex_ok context_ok relay hcreate
  have hlocal : nonempty_str relay.config.local_obs_address = true := by
    rw [hl]
    by_cases h : nonempty_str cfg.local_obs_address = true
    · rw [if_pos h]; exact h
    · rw [if_neg h]; decide
  have hremote : nonempty_str relay.config.remote_ws_address = false →
      relay.config.remote_ws_address = some [] := by
    intro hne
    rw [hr] at hne ⊢
    by_cases h : nonempty_str cfg.remote_ws_address = true
    · rw [if_pos h] at hne
      rw [h] at hne
      exact absurd hne (by decide)
    · rw [if_neg h]
      rfl
  refine ⟨?_, ?_, ?_, ?_, (nonempty_str_iff _).1 hlocal, ?_⟩
  · intro a ha hne
    have : nonempty_str cfg.local_obs_address = true := (nonempty_str_iff _).2 ⟨a, ha, hne⟩
    rw [hl, if_pos this, ha]
  · intro h
    have : ¬ nonempty_str cfg.local_obs_address = true := by
      rcases h with h | h <;> simp [h, nonempty_str]
    rw [hl, if_neg this]
    rfl
  · intro a ha hne
    have : nonempty_str cfg.remote_ws_address = true := (nonempty_str_iff _).2 ⟨a, ha, hne⟩
    rw [hr, if_pos this, ha]
  · intro h
    have : ¬ nonempty_str cfg.remote_ws_address = true := by
      rcases h with h | h <;> simp [h, nonempty_str]
    rw [hr, if_neg this]
    rfl
  · intro LWS_PRE evs thread_ok hret hnothread
    have hcfg := run_config LWS_PRE evs relay
    rw [hcfg]
    apply hremote
    by_contra hne
    have hne' : nonempty_str relay.config.remote_ws_address = true := by simpa using hne
    generalize (run LWS_PRE relay evs).1 = r at hcfg hret hnothread
    unfold ws_relay_start at hret hnothread
    by_cases hrun : r.running = true
    · simp [hrun] at hret
    · cases thread_ok <;> simp [hrun, hcfg, hlocal, hne'] at hret hnothread

/-- Witness of C21: the relay created from `demo_config`, which has no local
address of its own, and the relay created from `empty_address_config`. -/
theorem ws_relay_create_addresses_witness :
    demo_relay.config.local_obs_address = some "ws://localhost:4455".toList ∧
    demo_relay.config.remote_ws_address = some "wss://relay.example/ws".toList ∧
    unconfigured_relay.config.local_obs_address = some "ws://localhost:4455".toList ∧
    unconfigured_relay.config.remote_ws_address = some [] :=
  ⟨(ws_relay_create_addresses demo_config true true demo_relay (by decide)).2.1
      (Or.inl rfl),
    (ws_relay_create_addresses demo_config true true demo_relay (by decide)).2.2.1
      _ rfl (by decide),
    (ws_relay_create_addresses empty_address_config true true unconfigured_relay
      (by decide)).2.1 (Or.inr rfl),
    (ws_relay_create_addresses empty_address_config true true unconfigured_relay
      (by decide)).2.2.2.1 (Or.inl rfl)⟩

/-! ## Queued frames and disconnection: claim C22 -/

theorem flush_buffers_head (LWS_PRE wsi : Nat) (wr : Nat → Int) (k : Nat) (b : List Byte)
    (bs : List (List Byte)) :
    (flush_buffers LWS_PRE wsi wr k (b :: bs)).2.head? =
      some (Effect.lws_write wsi (frame_payload LWS_PRE b)) := by
  unfold flush_buffers
  by_cases h0 : wr k < 0
  · simp [h0]
  · simp [h0]

theorem ws_relay_stop_buffers (relay : ws_relay)
    (last : Option (Int × Option Nat × Option Nat)) (B : Leg) :
    ((ws_relay_stop relay last).1.conn B).buffers = (relay.conn B).buffers :=
  ws_relay_stop_induct (fun r => (r.conn B).buffers = (relay.conn B).buffers) relay last rfl
    (by cases B <;> rfl) (fun r now vr vo hr => (tick_buffers r now vr vo B).trans hr)
    (fun r hr => by cases B <;> exact hr)

theorem tick_cascade_buffers (relay : ws_relay) (B : Leg) :
    ((tick_cascade relay).1.conn B).buffers = (relay.conn B).buffers := by
  unfold tick_cascade
  cases hw : relay.obs_conn.wsi with
  | none => rfl
  | some w =>
    split_ifs
    · cases B <;> rfl
    · rfl

/-- C22: the closed callback, the cascade teardown of the scheduler,
`ws_relay_stop` and `ws_connect` leave the queue of every leg unchanged. So
when the closed callback runs for leg B with frame `f` at the head of B's
queue, and B is connected again on a new handle with no writable callback for
B in between, `f` is still at the head of B's queue (the queue at the close is
a prefix of the queue then), and the first call of the writable callback on
the new handle is the write of the payload of `f` on that handle. -/
theorem queued_frames_survive (LWS_PRE : Nat) (relay : ws_relay) (B : Leg) :
    (∀ (dest : Leg) (wsi : Nat) (input : List Byte) (wr : Nat → Int),
      ((ws_callback LWS_PRE dest relay wsi LWS_CALLBACK_CLIENT_CLOSED input wr).2.1.conn
        B).buffers = (relay.conn B).buffers ∧
      ((ws_callback LWS_PRE dest relay wsi LWS_CALLBACK_CLOSED input wr).2.1.conn
        B).buffers = (relay.conn B).buffers) ∧
    ((tick_cascade relay).1.conn B).buffers = (relay.conn B).buffers ∧
    (∀ (now : Int) (vr vo : Option Nat),
      ((ws_relay_tick relay now vr vo).1.conn B).buffers = (relay.conn B).buffers) ∧
    (∀ last : Option (Int × Option Nat × Option Nat),
      ((ws_relay_stop relay last).1.conn B).buffers = (relay.conn B).buffers) ∧
    (∀ (leg : Leg) (a : Option CStr) (v : Option Nat),
      ((ws_connect relay leg a v).2.1.conn B).buffers = (relay.conn B).buffers) ∧
    (∀ (w w' : Nat) (f : List Byte) (rest : List (List Byte)) (evs : List Event)
        (input : List Byte) (wr wr' : Nat → Int),
      lws_get_opaque_user_data relay.context w = some B →
      (relay.conn B).buffers = f :: rest →
      no_writeable_on LWS_PRE B
        (protocol_callback LWS_PRE B relay w LWS_CALLBACK_CLIENT_CLOSED input wr).2.1 evs = true →
      ((run LWS_PRE (protocol_callback LWS_PRE B relay w LWS_CALLBACK_CLIENT_CLOSED input
        wr).2.1 evs).1.conn B).state = WS_STATE_CONNECTED →
      ((run LWS_PRE (protocol_callback LWS_PRE B relay w LWS_CALLBACK_CLIENT_CLOSED input
        wr).2.1 evs).1.conn B).wsi = some w' →
      lws_get_opaque_user_data (run LWS_PRE (protocol_callback LWS_PRE B relay w
        LWS_CALLBACK_CLIENT_CLOSED input wr).2.1 evs).1.context w' = some B →
      (relay.conn B).buffers <+: ((run LWS_PRE (protocol_callback LWS_PRE B relay w
        LWS_CALLBACK_CLIENT_CLOSED input wr).2.1 evs).1.conn B).buffers ∧
      ((run LWS_PRE (protocol_callback LWS_PRE B relay w LWS_CALLBACK_CLIENT_CLOSED input
        wr).2.1 evs).1.conn B).buffers.head? = some f ∧
      (protocol_callback LWS_PRE B (run LWS_PRE (protocol_callback LWS_PRE B relay w
        LWS_CALLBACK_CLIENT_CLOSED input wr).2.1 evs).1 w' LWS_CALLBACK_CLIENT_WRITEABLE input
        wr').2.2.head? = some (Effect.lws_write w' (frame_payload LWS_PRE f))) := by
  have hclosed : ∀ (dest : Leg) (wsi : Nat) (input : List Byte) (wr : Nat → Int),
      ((ws_callback LWS_PRE dest relay wsi LWS_CALLBACK_CLIENT_CLOSED input wr).2.1.conn
        B).buffers = (relay.conn B).buffers := by
    intro dest wsi input wr
    have := ws_callback_buffers LWS_PRE dest relay wsi LWS_CALLBACK_CLIENT_CLOSED input wr B
      (by simp)
    simpa using this
  refine ⟨?_, tick_cascade_buffers relay B, fun now vr vo => tick_buffers relay now vr vo B,
    fun last => ws_relay_stop_buffers relay last B,
    fun leg a v => ws_connect_buffers relay leg a v B, ?_⟩
  · intro dest wsi input wr
    refine ⟨hclosed dest wsi input wr, ?_⟩
    have := ws_callback_buffers LWS_PRE dest relay wsi LWS_CALLBACK_CLOSED input wr B (by simp)
    simpa using this
  · intro w w' f rest evs input wr wr' _ hq hnw _ _ hleg
    have hafter : ((protocol_callback LWS_PRE B relay w LWS_CALLBACK_CLIENT_CLOSED input
        wr).2.1.conn B).buffers = f :: rest := by
      rw [protocol_callback_eq, hclosed, hq]
    have hrun := run_buffers LWS_PRE B evs _ hnw
    rw [hafter] at hrun
    generalize (run LWS_PRE (protocol_callback LWS_PRE B relay w LWS_CALLBACK_CLIENT_CLOSED
      input wr).2.1 evs).1 = r2 at hrun hleg ⊢
    refine ⟨?_, ?_, ?_⟩
    · rw [hrun, hq]
      exact List.prefix_append _ _
    · rw [hrun]; rfl
    · rw [protocol_callback_eq]
      unfold ws_callback
      rw [hleg]
      simp only [hrun]
      simp [flush_buffers_head]

/-- Witness of C22: the remote connection of `forward_events` is closed with
the frame `hi` queued; after `reconnect_events` the remote leg is connected on
handle 3 with `hi` at the head of its queue, and the writable callback on
handle 3 first writes `hi`. -/
theorem queued_frames_survive_witness :
    ((run 16 (protocol_callback 16 Leg.remote (run 16 demo_relay forward_events).1 1
      LWS_CALLBACK_CLIENT_CLOSED [] writes_ok).2.1 reconnect_events).1.conn Leg.remote).state =
        WS_STATE_CONNECTED ∧
    ((run 16 (protocol_callback 16 Leg.remote (run 16 demo_relay forward_events).1 1
      LWS_CALLBACK_CLIENT_CLOSED [] writes_ok).2.1 reconnect_events).1.conn
        Leg.remote).buffers.head? = some (make_frame 16 [104, 105]) ∧
    (protocol_callback 16 Leg.remote (run 16 (protocol_callback 16 Leg.remote
      (run 16 demo_relay forward_events).1 1 LWS_CALLBACK_CLIENT_CLOSED [] writes_ok).2.1
      reconnect_events).1 3 LWS_CALLBACK_CLIENT_WRITEABLE [] writes_ok).2.2.head? =
        some (Effect.lws_write 3 [104, 105]) :=
  ⟨by decide,
    ((queued_frames_survive 16 (run 16 demo_relay forward_events).1 Leg.remote).2.2.2.2.2 1 3
      (make_frame 16 [104, 105]) [] reconnect_events [] writes_ok writes_ok (by decide)
      (by decide) (by decide) (by decide) (by decide) (by decide)).2⟩

end ObsWsRelay
